import Mathlib

/-!
# Verification of the encrypt-rewind API consumption core

Shallow embedding of the repository's API-consumption core:
`CacheService` (two-tier cache keyed by MD5 content hashes),
`APIKeyManager` (round-robin credential rotation with health tracking),
`APIMonitor` (time-bucketed usage counters and admission control),
and `RiotAPIService` (request queue / drain loop, routing resolution,
and paginated season match-ID fetching).

JavaScript numbers are modelled as `Nat` (all quantities involved are
non-negative integers), JS `Map`s as association lists preserving
insertion order, wall-clock time as an explicit `Nat` parameter, and
`setTimeout`-scheduled callbacks as explicit scheduled-event values.
-/

set_option maxRecDepth 4000

/-! ## Definitions: shallow embedding of the source modules -/

namespace MD5

/-- Truncation to 32 bits, `x % 2^32`. -/
def mask32 (x : Nat) : Nat := x % 4294967296

/-- Bitwise complement on 32 bits (for `x < 2^32` this is `~x`). -/
def not32 (x : Nat) : Nat := 4294967295 - mask32 x

/-- Left rotation of a 32-bit word by `c` bits. -/
def rotl32 (x c : Nat) : Nat :=
  mask32 (Nat.shiftLeft (mask32 x) c) ||| Nat.shiftRight (mask32 x) (32 - c)

/-- Per-round left-rotation amounts (RFC 1321). -/
def shiftTable : List Nat :=
  [7, 12, 17, 22, 7, 12, 17, 22, 7, 12, 17, 22, 7, 12, 17, 22,
   5, 9, 14, 20, 5, 9, 14, 20, 5, 9, 14, 20, 5, 9, 14, 20,
   4, 11, 16, 23, 4, 11, 16, 23, 4, 11, 16, 23, 4, 11, 16, 23,
   6, 10, 15, 21, 6, 10, 15, 21, 6, 10, 15, 21, 6, 10, 15, 21]

/-- Per-round additive constants `⌊2^32·|sin(i+1)|⌋` (RFC 1321). -/
def sineTable : List Nat :=
  [0xd76aa478, 0xe8c7b756, 0x242070db, 0xc1bdceee,
   0xf57c0faf, 0x4787c62a, 0xa8304613, 0xfd469501,
   0x698098d8, 0x8b44f7af, 0xffff5bb1, 0x895cd7be,
   0x6b901122, 0xfd987193, 0xa679438e, 0x49b40821,
   0xf61e2562, 0xc040b340, 0x265e5a51, 0xe9b6c7aa,
   0xd62f105d, 0x02441453, 0xd8a1e681, 0xe7d3fbc8,
   0x21e1cde6, 0xc33707d6, 0xf4d50d87, 0x455a14ed,
   0xa9e3e905, 0xfcefa3f8, 0x676f02d9, 0x8d2a4c8a,
   0xfffa3942, 0x8771f681, 0x6d9d6122, 0xfde5380c,
   0xa4beea44, 0x4bdecfa9, 0xf6bb4b60, 0xbebfbc70,
   0x289b7ec6, 0xeaa127fa, 0xd4ef3085, 0x04881d05,
   0xd9d4d039, 0xe6db99e5, 0x1fa27cf8, 0xc4ac5665,
   0xf4292244, 0x432aff97, 0xab9423a7, 0xfc93a039,
   0x655b59c3, 0x8f0ccc92, 0xffeff47d, 0x85845dd1,
   0x6fa87e4f, 0xfe2ce6e0, 0xa3014314, 0x4e0811a1,
   0xf7537e82, 0xbd3af235, 0x2ad7d2bb, 0xeb86d391]

/-- UTF-8 encoding of one character (Node's default encoding for
`hash.update(string)`). -/
def utf8Char (c : Char) : List Nat :=
  let n := c.toNat
  if n < 0x80 then [n]
  else if n < 0x800 then
    [0xC0 ||| Nat.shiftRight n 6, 0x80 ||| (n &&& 0x3F)]
  else if n < 0x10000 then
    [0xE0 ||| Nat.shiftRight n 12, 0x80 ||| (Nat.shiftRight n 6 &&& 0x3F),
     0x80 ||| (n &&& 0x3F)]
  else
    [0xF0 ||| Nat.shiftRight n 18, 0x80 ||| (Nat.shiftRight n 12 &&& 0x3F),
     0x80 ||| (Nat.shiftRight n 6 &&& 0x3F), 0x80 ||| (n &&& 0x3F)]

/-- UTF-8 byte sequence of a string. -/
def utf8Bytes (s : String) : List Nat :=
  s.data.flatMap utf8Char

/-- Little-endian byte serialization of `x` on `n` bytes. -/
def leBytes : Nat → Nat → List Nat
  | 0, _ => []
  | n + 1, x => (x % 256) :: leBytes n (x / 256)

/-- MD5 padding: append `0x80`, zero-pad to 56 mod 64, then the original
bit length on 8 little-endian bytes. -/
def padMessage (msg : List Nat) : List Nat :=
  let zeros := (119 - msg.length % 64) % 64
  msg ++ 0x80 :: List.replicate zeros 0 ++ leBytes 8 ((msg.length * 8) % 18446744073709551616)

/-- Group a little-endian byte list into 32-bit words. -/
def toWordsLE : List Nat → List Nat
  | b0 :: b1 :: b2 :: b3 :: rest =>
      (b0 + 256 * b1 + 65536 * b2 + 16777216 * b3) :: toWordsLE rest
  | _ => []

/-- Split a byte list into 64-byte blocks (structural recursion on a fuel
bound so that the definition reduces inside the kernel). -/
def blocks64Go : Nat → List Nat → List (List Nat)
  | 0, _ => []
  | _, [] => []
  | fuel + 1, x :: xs => ((x :: xs).take 64) :: blocks64Go fuel ((x :: xs).drop 64)

/-- Split a byte list into 64-byte blocks. -/
def blocks64 (l : List Nat) : List (List Nat) := blocks64Go l.length l

/-- One MD5 round:`i` is the round index, `m` the 16 message words. -/
def md5Round (m : List Nat) (st : Nat × Nat × Nat × Nat) (i : Nat) :
    Nat × Nat × Nat × Nat :=
  let (a, b, c, d) := st
  let (f, g) :=
    if i < 16 then ((b &&& c) ||| (not32 b &&& d), i)
    else if i < 32 then ((d &&& b) ||| (not32 d &&& c), (5 * i + 1) % 16)
    else if i < 48 then (Nat.xor b (Nat.xor c d), (3 * i + 5) % 16)
    else (Nat.xor c (b ||| not32 d), (7 * i) % 16)
  let f' := mask32 (f + a + sineTable.getD i 0 + m.getD g 0)
  (d, mask32 (b + rotl32 f' (shiftTable.getD i 0)), b, c)

/-- Process one 64-byte block, updating the running digest state. -/
def md5Block (st : Nat × Nat × Nat × Nat) (block : List Nat) :
    Nat × Nat × Nat × Nat :=
  let m := toWordsLE block
  let (a, b, c, d) := (List.range 64).foldl (md5Round m) st
  (mask32 (st.1 + a), mask32 (st.2.1 + b), mask32 (st.2.2.1 + c),
   mask32 (st.2.2.2 + d))

/-- Lowercase hexadecimal digit. -/
def hexDigit (n : Nat) : Char :=
  if n < 10 then Char.ofNat (48 + n) else Char.ofNat (87 + n)

/-- Two-digit lowercase hex of one byte. -/
def byteHex (b : Nat) : List Char :=
  [hexDigit (b / 16 % 16), hexDigit (b % 16)]

/-- MD5 digest of a string, as the 32-character lowercase hex string
that `crypto.createHash('md5').update(s).digest('hex')` produces. -/
def md5Hex (s : String) : String :=
  let padded := padMessage (utf8Bytes s)
  let (a, b, c, d) :=
    (blocks64 padded).foldl md5Block (0x67452301, 0xefcdab89, 0x98badcfe, 0x10325476)
  String.mk (((leBytes 4 a ++ leBytes 4 b ++ leBytes 4 c ++ leBytes 4 d).flatMap byteHex))

end MD5

namespace CacheService

/-- JS `String.prototype.startsWith`: character-wise prefix test. -/
def jsStartsWith (s p : String) : Bool :=
  p.data.isPrefixOf s.data

/-- Source `generateKey(prefix, ...params)` from `src/utils/CacheService.js`:
builds `` `${prefix}_${params.join('_')}` `` and returns its MD5 hex digest.
(The JS parameter `prefix` is named `keyPrefix` here.) -/
def generateKey (keyPrefix : String) (params : List String) : String :=
  MD5.md5Hex (keyPrefix ++ "_" ++ String.intercalate "_" params)

/-- The un-hashed key string `` `${prefix}_${params.join('_')}` ``. -/
def keyString (keyPrefix : String) (params : List String) : String :=
  keyPrefix ++ "_" ++ String.intercalate "_" params

/-- The `memoryCacheTTL` table from the `CacheService` constructor
(milliseconds). -/
structure MemoryCacheTTL where
  matchIds : Nat
  matchHistoryBatch : Nat
  matchDetails : Nat
  summoner : Nat
  account : Nat
  matchHistoryFull : Nat

/-- Source `this.memoryCacheTTL` field values. -/
def memoryCacheTTL : MemoryCacheTTL :=
  { matchIds := 2 * 60 * 60 * 1000
    matchHistoryBatch := 3 * 60 * 60 * 1000
    matchDetails := 24 * 60 * 60 * 1000
    summoner := 1 * 60 * 60 * 1000
    account := 2 * 60 * 60 * 1000
    matchHistoryFull := 4 * 60 * 60 * 1000 }

/-- Source `this.memoryCacheMaxSize`. -/
def memoryCacheMaxSize : Nat := 1000

/-- Source `getMemoryTTLForKey(key)`: dispatches on the key's literal prefix,
falling back to a default of one hour. -/
def getMemoryTTLForKey (key : String) : Nat :=
  if jsStartsWith key "matchIds_" then memoryCacheTTL.matchIds
  else if jsStartsWith key "matchHistoryBatch_" then memoryCacheTTL.matchHistoryBatch
  else if jsStartsWith key "matchHistoryFull_" then memoryCacheTTL.matchHistoryFull
  else if jsStartsWith key "matchDetails_" then memoryCacheTTL.matchDetails
  else if jsStartsWith key "summoner_" then memoryCacheTTL.summoner
  else if jsStartsWith key "account_" then memoryCacheTTL.account
  else 60 * 60 * 1000

/-- One in-memory cache entry `{data, timestamp}` (value of
`this.memoryCache`, a JS `Map`). -/
structure MemEntry (α : Type) where
  data : α
  timestamp : Nat

/-- One on-disk cache file `{timestamp, data}` (shape written by `set`). -/
structure DiskEntry (α : Type) where
  timestamp : Nat
  data : α

/-- A JS `Map` / keyed file store as an insertion-ordered association
list. -/
def jsMapGet {α : Type} (m : List (String × α)) (key : String) : Option α :=
  (m.find? (fun e => e.1 = key)).map Prod.snd

/-- JS `Map.prototype.set`: updates an existing key in place (keeping
its position) or appends a new key at the end. -/
def jsMapSet {α : Type} (m : List (String × α)) (key : String) (v : α) :
    List (String × α) :=
  if m.any (fun e => e.1 = key) then
    m.map (fun e => if e.1 = key then (key, v) else e)
  else m ++ [(key, v)]

/-- JS `Map.prototype.delete` / `fs.unlinkSync` on a keyed store. -/
def jsMapDelete {α : Type} (m : List (String × α)) (key : String) :
    List (String × α) :=
  m.filter (fun e => e.1 ≠ key)

/-- The two storage tiers of `CacheService`: the in-memory `Map` and the
one-file-per-key disk directory. -/
structure CacheState (α : Type) where
  memoryCache : List (String × MemEntry α)
  disk : List (String × DiskEntry α)

/-- Cache-hit / cache-miss counters of the Usage Monitor. -/
structure MonitorCounters where
  cacheHits : Nat
  cacheMisses : Nat

/-- Modelled from the spec: `APIMonitor.recordCacheHit` is called by
`CacheService.get` but no definition of it appears anywhere in the
sources (only callers). Per the spec the Usage Monitor "tracks request
volume in rolling time buckets ... and cache-hit ratio", so the call is
modelled as a pure increment of a cache-hit counter with no effect on
either cache tier. -/
def recordCacheHit (m : MonitorCounters) : MonitorCounters :=
  { m with cacheHits := m.cacheHits + 1 }

/-- Modelled from the spec: `APIMonitor.recordCacheMiss`, absent from the
sources like `recordCacheHit`; modelled as a pure increment of a
cache-miss counter. -/
def recordCacheMiss (m : MonitorCounters) : MonitorCounters :=
  { m with cacheMisses := m.cacheMisses + 1 }

/-- Source `setMemoryCache(key, data)`: evicts the oldest (first-inserted) entry
once `memoryCacheMaxSize` is reached, then stores `{data, timestamp: Date.now()}`. -/
def setMemoryCache {α : Type} (s : CacheState α) (key : String) (data : α)
    (now : Nat) : CacheState α :=
  let m :=
    if s.memoryCache.length ≥ memoryCacheMaxSize then
      match s.memoryCache with
      | [] => []
      | first :: rest => jsMapDelete (first :: rest) first.1
    else s.memoryCache
  { s with memoryCache := jsMapSet m key { data := data, timestamp := now } }

/-- Source `set(key, data)`: stores in the memory tier, then writes
`{timestamp: Date.now(), data}` to the key's disk file (returns `true`;
the model has no filesystem failures). -/
def set {α : Type} (s : CacheState α) (key : String) (data : α) (now : Nat) :
    CacheState α :=
  let s1 := setMemoryCache s key data now
  { s1 with disk := jsMapSet s1.disk key { timestamp := now, data := data } }

/-- The disk-read branch of `get`: the disk tier never expires — any
present entry is returned and promoted into the memory tier. -/
def getDisk {α : Type} (s : CacheState α) (mon : MonitorCounters)
    (key : String) (now : Nat) : Option α × CacheState α × MonitorCounters :=
  match jsMapGet s.disk key with
  | none => (none, s, recordCacheMiss mon)
  | some d => (some d.data, setMemoryCache s key d.data now, recordCacheHit mon)

/-- Source `get(key, ttl = null)`: checks the memory tier first, honoring
`ttl || getMemoryTTLForKey(key)`; deletes an expired memory entry and
falls through to the permanent disk tier. `now` models `Date.now()`.
No Scheduler or network interaction appears anywhere in this function. -/
def get {α : Type} (s : CacheState α) (mon : MonitorCounters) (key : String)
    (now : Nat) (ttl : Option Nat := none) :
    Option α × CacheState α × MonitorCounters :=
  match jsMapGet s.memoryCache key with
  | some e =>
      let cacheTTL := ttl.getD (getMemoryTTLForKey key)
      if now - e.timestamp < cacheTTL then
        (some e.data, s, recordCacheHit mon)
      else
        getDisk { s with memoryCache := jsMapDelete s.memoryCache key } mon key now
  | none => getDisk s mon key now

end CacheService

namespace APIKeyManager

/-- ASCII lowering of one char (enough for the routing values involved). -/
def lowerChar (c : Char) : Char :=
  if 65 ≤ c.toNat ∧ c.toNat ≤ 90 then Char.ofNat (c.toNat + 32) else c

/-- JS `String.prototype.trim` (ASCII whitespace). -/
def jsTrim (s : String) : String :=
  let ws : Char → Bool := fun c => c = ' ' || c = '\t' || c = '\n' || c = '\r'
  String.mk (((s.data.dropWhile ws).reverse.dropWhile ws).reverse)

/-- One credential object of `APIKeyManager.apiKeys`. -/
structure Credential where
  id : String
  key : String
  enabled : Bool
  lastUsed : Nat
  errorCount : Nat
  requestCount : Nat
deriving DecidableEq

/-- Placeholder credential for the (always in-bounds) JS array index. -/
def defaultCred : Credential :=
  { id := "", key := "", enabled := false, lastUsed := 0, errorCount := 0,
    requestCount := 0 }

/-- The mutable manager state: the key pool and the round-robin cursor. -/
structure ManagerState where
  apiKeys : List Credential
  currentKeyIndex : Nat
deriving DecidableEq

/-- The filter `k => k.enabled && k.key && k.key.trim().length > 0`. -/
def usableKey (k : Credential) : Bool :=
  k.enabled && (k.key != "") && ((jsTrim k.key).length != 0)

/-- JS mutation of one credential object: replaces the first pool entry
with the given id (ids are unique in practice: `primary`, `key_2`, …). -/
def updateFirst (ks : List Credential) (keyId : String)
    (f : Credential → Credential) : List Credential :=
  match ks with
  | [] => []
  | k :: rest =>
      if k.id = keyId then f k :: rest else k :: updateFirst rest keyId f

/-- The emergency branch's `forEach`: re-enables every credential whose
secret is a non-empty, non-whitespace string and resets its error count. -/
def reEnableAll (ks : List Credential) : List Credential :=
  ks.map (fun k =>
    if k.key ≠ "" ∧ (jsTrim k.key).length ≠ 0 then
      { k with enabled := true, errorCount := 0 }
    else k)

/-- Source `key.lastUsed = Date.now(); key.requestCount++`. -/
def touchKey (now : Nat) (k : Credential) : Credential :=
  { k with lastUsed := now, requestCount := k.requestCount + 1 }

/-- The body of `getNextAPIKey()`. The JS code can recurse (guarded by
`currentKeyIndex < apiKeys.length * 2`, with the cursor strictly
increasing on each recursion), so the model carries a fuel argument; the
wrapper below supplies fuel exceeding the guard's maximal depth, making
the fuel-exhaustion case unreachable. -/
def getNextAPIKeyGo (now : Nat) : Nat → ManagerState →
    Except String (Credential × ManagerState)
  | 0, _ => .error "Failed to find valid API key after checking all keys"
  | fuel + 1, s =>
    if s.apiKeys.isEmpty then
      .error "No API keys available. Please set RIOT_API_KEY in your .env file."
    else
      let enabledKeys := s.apiKeys.filter usableKey
      if enabledKeys.isEmpty then
        let keys1 := reEnableAll s.apiKeys
        let reEnabledKeys := keys1.filter usableKey
        if reEnabledKeys.isEmpty then
          .error "No valid API keys available. All keys are invalid or disabled."
        else
          let key := reEnabledKeys.getD (s.currentKeyIndex % reEnabledKeys.length) defaultCred
          .ok (touchKey now key,
               { apiKeys := updateFirst keys1 key.id (touchKey now),
                 currentKeyIndex := s.currentKeyIndex + 1 })
      else
        let key := enabledKeys.getD (s.currentKeyIndex % enabledKeys.length) defaultCred
        let idx1 := s.currentKeyIndex + 1
        if key.key = "" ∨ (jsTrim key.key).length = 0 then
          let keys2 := updateFirst s.apiKeys key.id (fun k => { k with enabled := false })
          let remaining := keys2.filter (fun k => usableKey k && k.id != key.id)
          if remaining.isEmpty then
            .error "No valid API keys available. All configured keys are invalid."
          else if idx1 < s.apiKeys.length * 2 then
            getNextAPIKeyGo now fuel { apiKeys := keys2, currentKeyIndex := idx1 }
          else
            .error "Failed to find valid API key after checking all keys"
        else
          .ok (touchKey now key,
               { apiKeys := updateFirst s.apiKeys key.id (touchKey now),
                 currentKeyIndex := idx1 })

/-- Source `getNextAPIKey()`: round-robin selection over the usable credentials,
with the emergency re-enable fallback. -/
def getNextAPIKey (s : ManagerState) (now : Nat) :
    Except String (Credential × ManagerState) :=
  getNextAPIKeyGo now (2 * s.apiKeys.length + 1) s

/-- The `setTimeout`-scheduled cooldown re-enable of a disabled key. -/
structure ScheduledReEnable where
  keyId : String
  fireAt : Nat
deriving DecidableEq

/-- Source `recordError(keyId, errorCode)`: increments the key's error count;
on a 429/403 with (post-increment) count ≥ 3, disables the key and
schedules a re-enable 5 minutes later. -/
def recordError (s : ManagerState) (keyId : String) (errorCode : Nat)
    (now : Nat) : ManagerState × Option ScheduledReEnable :=
  match s.apiKeys.find? (fun k => k.id = keyId) with
  | none => (s, none)
  | some key =>
    let newCount := key.errorCount + 1
    let disables := (errorCode = 429 ∨ errorCode = 403) ∧ 3 ≤ newCount
    let keys' := updateFirst s.apiKeys keyId (fun k =>
      if disables then { k with errorCount := newCount, enabled := false }
      else { k with errorCount := newCount })
    ({ s with apiKeys := keys' },
     if disables then some { keyId := keyId, fireAt := now + 5 * 60 * 1000 }
     else none)

/-- The body of the scheduled callback: `key.enabled = true;
key.errorCount = 0`. -/
def fireReEnable (s : ManagerState) (keyId : String) : ManagerState :=
  { s with
    apiKeys := updateFirst s.apiKeys keyId
      (fun k => { k with enabled := true, errorCount := 0 }) }

/-- Source `recordSuccess(keyId)`: decrements the error count toward zero. -/
def recordSuccess (s : ManagerState) (keyId : String) : ManagerState :=
  { s with
    apiKeys := updateFirst s.apiKeys keyId
      (fun k => if 0 < k.errorCount then { k with errorCount := k.errorCount - 1 } else k) }

end APIKeyManager

namespace APIMonitor

/-- One time-bucket counter `{requests, errors, cacheHits}`. -/
structure Bucket where
  requests : Nat
  errors : Nat
  cacheHits : Nat
deriving DecidableEq

/-- Per-credential cumulative counters. -/
structure KeyStats where
  totalRequests : Nat
  totalErrors : Nat
  totalCacheHits : Nat
deriving DecidableEq

/-- Wall-clock bucket labels (`YYYY-MM-DD`, `YYYY-MM-DD-HH`,
`YYYY-MM-DD-HH-mm`); derived from `moment()` in the source, passed
explicitly here. -/
structure TimeBuckets where
  day : String
  hour : String
  minute : String

/-- Source `this.stats` of `APIMonitor`. -/
structure Stats where
  totalRequests : Nat
  totalErrors : Nat
  totalCacheHits : Nat
  dailyStats : List (String × Bucket)
  hourlyStats : List (String × Bucket)
  minuteStats : List (String × Bucket)
  apiKeys : List (String × KeyStats)

/-- The freshly initialized stats structure (`loadStats` default). -/
def emptyStats : Stats :=
  { totalRequests := 0, totalErrors := 0, totalCacheHits := 0,
    dailyStats := [], hourlyStats := [], minuteStats := [], apiKeys := [] }

/-- Source `this.limits.requestsPerMinute`. -/
def requestsPerMinute : Nat := 100

/-- Lookup of a bucket map with the zero bucket as the
`|| { requests: 0, ... }` fallback. -/
def bucketGetD (m : List (String × Bucket)) (k : String) : Bucket :=
  (CacheService.jsMapGet m k).getD { requests := 0, errors := 0, cacheHits := 0 }

/-- Initialize-if-absent followed by a field update on one bucket. -/
def bumpBucket (m : List (String × Bucket)) (k : String)
    (f : Bucket → Bucket) : List (String × Bucket) :=
  CacheService.jsMapSet m k (f (bucketGetD m k))

/-- Per-credential cumulative cache-hit increment. -/
def bumpKeyCacheHits (m : List (String × KeyStats)) (k : String) :
    List (String × KeyStats) :=
  let x := (CacheService.jsMapGet m k).getD
    { totalRequests := 0, totalErrors := 0, totalCacheHits := 0 }
  CacheService.jsMapSet m k { x with totalCacheHits := x.totalCacheHits + 1 }

/-- Per-credential cumulative error increment. -/
def bumpKeyErrors (m : List (String × KeyStats)) (k : String) :
    List (String × KeyStats) :=
  let x := (CacheService.jsMapGet m k).getD
    { totalRequests := 0, totalErrors := 0, totalCacheHits := 0 }
  CacheService.jsMapSet m k { x with totalErrors := x.totalErrors + 1 }

/-- Source `recordRequest(apiKeyId, endpoint, statusCode, fromCache, duration)`:
initializes the current buckets if needed and increments the request
counters of every granularity; the cache-hit counters additionally when
`fromCache`, the error counters when `statusCode >= 400`. The periodic
`saveStats` and the advisory `checkAlerts` have no effect on the
counters and are omitted. -/
def recordRequest (s : Stats) (apiKeyId : String) (statusCode : Nat)
    (fromCache : Bool) (b : TimeBuckets) : Stats :=
  let keyStats := (CacheService.jsMapGet s.apiKeys apiKeyId).getD
    { totalRequests := 0, totalErrors := 0, totalCacheHits := 0 }
  let s1 : Stats :=
    { s with
      totalRequests := s.totalRequests + 1,
      dailyStats := bumpBucket s.dailyStats b.day
        (fun x => { x with requests := x.requests + 1 }),
      hourlyStats := bumpBucket s.hourlyStats b.hour
        (fun x => { x with requests := x.requests + 1 }),
      minuteStats := bumpBucket s.minuteStats b.minute
        (fun x => { x with requests := x.requests + 1 }),
      apiKeys := CacheService.jsMapSet s.apiKeys apiKeyId
        { keyStats with totalRequests := keyStats.totalRequests + 1 } }
  let s2 : Stats :=
    if fromCache then
      { s1 with
        totalCacheHits := s1.totalCacheHits + 1,
        dailyStats := bumpBucket s1.dailyStats b.day
          (fun x => { x with cacheHits := x.cacheHits + 1 }),
        hourlyStats := bumpBucket s1.hourlyStats b.hour
          (fun x => { x with cacheHits := x.cacheHits + 1 }),
        minuteStats := bumpBucket s1.minuteStats b.minute
          (fun x => { x with cacheHits := x.cacheHits + 1 }),
        apiKeys := bumpKeyCacheHits s1.apiKeys apiKeyId }
    else s1
  if 400 ≤ statusCode then
    { s2 with
      totalErrors := s2.totalErrors + 1,
      dailyStats := bumpBucket s2.dailyStats b.day
        (fun x => { x with errors := x.errors + 1 }),
      hourlyStats := bumpBucket s2.hourlyStats b.hour
        (fun x => { x with errors := x.errors + 1 }),
      minuteStats := bumpBucket s2.minuteStats b.minute
        (fun x => { x with errors := x.errors + 1 }),
      apiKeys := bumpKeyErrors s2.apiKeys apiKeyId }
  else s2

/-- Admission result of `canMakeRequest()`. -/
structure AdmissionResult where
  allowed : Bool
  retryAfter : Option Nat
deriving DecidableEq

/-- Source `canMakeRequest()`: denies once the current minute bucket has reached
the 100-per-minute ceiling, advising a retry when the minute rolls over
(`60 - moment().seconds()`). -/
def canMakeRequest (s : Stats) (b : TimeBuckets) (secondsOfMinute : Nat) :
    AdmissionResult :=
  let minuteStats := bucketGetD s.minuteStats b.minute
  if requestsPerMinute ≤ minuteStats.requests then
    { allowed := false, retryAfter := some (60 - secondsOfMinute) }
  else
    { allowed := true, retryAfter := none }

end APIMonitor

namespace RiotAPIService

/-- JS `a || b` on strings (empty string is falsy). -/
def jsOr (a b : String) : String := if a = "" then b else a

/-- JS `String.prototype.toLowerCase` (ASCII). -/
def jsToLower (s : String) : String :=
  String.mk (s.data.map APIKeyManager.lowerChar)

/-- The `validPlatforms` list of `resolveRegionAndPlatform`. -/
def validPlatforms : List String :=
  ["br1", "eun1", "euw1", "jp1", "kr", "la1", "la2", "na1", "oc1", "tr1",
   "ru", "sg2", "tw2", "vn2"]

/-- The `validRegions` list. -/
def validRegions : List String := ["americas", "europe", "asia", "sea"]

/-- The `regionalToDefaultPlatform` lookup object (object access on a key
outside the table is `undefined`; only reached for members of
`validRegions`, so any stand-in value works — `""` is used). -/
def regionalToDefaultPlatform : String → String
  | "americas" => "na1"
  | "europe" => "euw1"
  | "asia" => "kr"
  | "sea" => "sg2"
  | _ => ""

/-- The `platformToRegional` lookup object (`undefined` outside the
table, modelled as `none`). -/
def platformToRegional : String → Option String
  | "na1" => some "americas"
  | "br1" => some "americas"
  | "la1" => some "americas"
  | "la2" => some "americas"
  | "euw1" => some "europe"
  | "eun1" => some "europe"
  | "ru" => some "europe"
  | "tr1" => some "europe"
  | "kr" => some "asia"
  | "jp1" => some "asia"
  | "oc1" => some "sea"
  | "sg2" => some "sea"
  | "tw2" => some "sea"
  | "vn2" => some "sea"
  | _ => none

/-- Source `resolveRegionAndPlatform(userRegion, forAccountAPI, forMatchAPI)`.
`thisRegion`/`thisPlatform` are the instance defaults computed in the
constructor (`this.region`, `this.platform`); `userRegion = none` models
a `null` argument. Returns the `{region, platform}` pair. -/
def resolveRegionAndPlatform (userRegion : Option String)
    (forAccountAPI : Bool) (forMatchAPI : Bool)
    (thisRegion thisPlatform : String) : String × String :=
  let userInput := jsToLower (jsOr (jsOr (userRegion.getD "") thisRegion) "sea")
  let rp :=
    if validRegions.contains userInput then
      (userInput, regionalToDefaultPlatform userInput)
    else if validPlatforms.contains userInput then
      ((platformToRegional userInput).getD "sea", userInput)
    else
      (thisRegion, thisPlatform)
  if forAccountAPI ∧ rp.1 = "sea" then ("asia", rp.2) else rp

/-- Phase of one live `processQueue` drain-loop instance. -/
inductive DrainPhase where
  | deciding
  | awaitingCall
deriving DecidableEq

/-- Scheduler state: queue length, the `isProcessing` flag, and the live
drain instances. -/
structure SchedState where
  queue : Nat
  isProcessing : Bool
  drains : List DrainPhase
deriving DecidableEq

/-- The synchronous prefix of `processQueue()`: return unless
`!isProcessing && queue.length > 0`, otherwise set `isProcessing` and
start a new drain instance. -/
def enterProcessQueue (s : SchedState) : SchedState :=
  if s.isProcessing || s.queue = 0 then s
  else { s with isProcessing := true, drains := .deciding :: s.drains }

/-- Initial scheduler state (constructor: empty queue, not processing). -/
def initSched : SchedState :=
  { queue := 0, isProcessing := false, drains := [] }

/-- Events of the scheduler:
* `enqueue` — `makeRequest` pushes a request and calls `processQueue`;
* `beginCall` — a drain instance dequeues a request and starts the
  upstream `axios.get`;
* `endCall` — the awaited call settles and the drain continues its loop;
* `finishDrain` — a drain instance leaves its `while` loop and runs the
  `finally { this.isProcessing = false; }` block. -/
inductive SchedStep : SchedState → SchedState → Prop where
  | enqueue (s : SchedState) :
      SchedStep s (enterProcessQueue { s with queue := s.queue + 1 })
  | beginCall (s : SchedState) (l1 l2 : List DrainPhase)
      (hd : s.drains = l1 ++ .deciding :: l2) (hq : 0 < s.queue) :
      SchedStep s
        { s with queue := s.queue - 1, drains := l1 ++ .awaitingCall :: l2 }
  | endCall (s : SchedState) (l1 l2 : List DrainPhase)
      (hd : s.drains = l1 ++ .awaitingCall :: l2) :
      SchedStep s { s with drains := l1 ++ .deciding :: l2 }
  | finishDrain (s : SchedState) (l1 l2 : List DrainPhase)
      (hd : s.drains = l1 ++ .deciding :: l2) :
      SchedStep s { s with drains := l1 ++ l2, isProcessing := false }

/-- States reachable from the freshly constructed service. -/
inductive SchedReachable : SchedState → Prop where
  | init : SchedReachable initSched
  | step {s s' : SchedState} (h : SchedReachable s) (hs : SchedStep s s') :
      SchedReachable s'

/-- Number of upstream calls currently in flight. -/
def inFlight (s : SchedState) : Nat :=
  s.drains.countP (fun d => d = .awaitingCall)

/-- Result of one `axios.get` (with `validateStatus: s => s < 500`):
either a response object (whose body may be a Riot error envelope
`{status:{status_code}}`), or a thrown error (5xx response or network
timeout, the latter carrying no status). -/
inductive AxiosResult where
  | ok (status : Nat) (bodyErrorCode : Option Nat)
  | thrown (status : Option Nat)
deriving DecidableEq

/-- How the caller's promise is settled. -/
inductive Outcome where
  | resolved
  | rejected (status : Option Nat)
deriving DecidableEq

/-- Running state of one request's dispatch: credential-manager state,
number of network calls made so far, and JS `lastError`'s status. -/
structure DispatchState where
  mgr : APIKeyManager.ManagerState
  calls : Nat
  lastError : Option (Option Nat)

/-- The `for (keyAttempt …)` loop, recursing on the remaining attempts;
`maxRetries = min(apiKeys.length, 3)` and
`keyAttempt = maxRetries - remaining`. Returns the settled outcome and
the number of network calls that were issued. Monitor recording and
logging do not influence control flow and are elided; `recordError` /
`recordSuccess` are applied to the credential pool as in the source. -/
def dispatchGo (net : Nat → AxiosResult) (maxRetries : Nat) :
    Nat → DispatchState → Outcome × Nat
  | 0, st =>
      -- after the loop: `if (!requestSucceeded) reject(lastError ?? generic 401)`
      (.rejected (st.lastError.getD (some 401)), st.calls)
  | remaining + 1, st =>
      let keyAttempt := maxRetries - (remaining + 1)
      match APIKeyManager.getNextAPIKey st.mgr 0 with
      | .error _ =>
          -- `catch (keyError)`: reject a 500 on the first attempt, else
          -- break and reject `lastError` after the loop
          if keyAttempt = 0 then (.rejected (some 500), st.calls)
          else (.rejected (st.lastError.getD (some 401)), st.calls)
      | .ok (key, mgr1) =>
          if key.key = "" ∨ (APIKeyManager.jsTrim key.key).length = 0 then
            -- invalid key string: record a 401 and `continue`
            dispatchGo net maxRetries remaining
              { st with mgr := (APIKeyManager.recordError mgr1 key.id 401 0).1 }
          else
            match net st.calls with
            | .ok status (some bodyCode) =>
                -- Riot error envelope in the body
                if bodyCode = 401 ∧ keyAttempt < maxRetries - 1 then
                  dispatchGo net maxRetries remaining
                    { mgr := (APIKeyManager.recordError mgr1 key.id bodyCode 0).1,
                      calls := st.calls + 1, lastError := some (some bodyCode) }
                else
                  (.rejected (some bodyCode), st.calls + 1)
            | .ok status none =>
                if 400 ≤ status then
                  if status = 401 ∧ keyAttempt < maxRetries - 1 then
                    dispatchGo net maxRetries remaining
                      { mgr := (APIKeyManager.recordError mgr1 key.id status 0).1,
                        calls := st.calls + 1, lastError := some (some status) }
                  else
                    (.rejected (some status), st.calls + 1)
                else
                  (.resolved, st.calls + 1)
            | .thrown status =>
                if status = some 401 ∧ keyAttempt < maxRetries - 1 then
                  dispatchGo net maxRetries remaining
                    { mgr := (APIKeyManager.recordError mgr1 key.id 401 0).1,
                      calls := st.calls + 1, lastError := some status }
                else
                  -- non-401 throw: break, then reject `lastError = error`
                  (.rejected status, st.calls + 1)

/-- Dispatch of one dequeued request (the attempt loop of
`processQueue`). -/
def processOneRequest (net : Nat → AxiosResult)
    (mgr : APIKeyManager.ManagerState) : Outcome × Nat :=
  let maxRetries := min mgr.apiKeys.length 3
  dispatchGo net maxRetries maxRetries
    { mgr := mgr, calls := 0, lastError := none }

/-- Source `batchSize` of `getAllMatchHistoryForYear` (max page size). -/
def batchSize : Nat := 100

/-- Source `maxEmptyBatches`. -/
def maxEmptyBatches : Nat := 2

/-- The `while (hasMore)` loop of `getAllMatchHistoryForYear` on the
non-throwing path: `pages start` is the match-ID array returned by
`getMatchHistory(puuid, start, 100)`. Returns the concatenated IDs and
the trace of requested offsets. Structural fuel models the unbounded
`while`; every theorem below supplies enough fuel for the loop to reach
its stopping condition. -/
def fetchLoop (pages : Nat → List String) :
    Nat → Nat → List String → List Nat → Nat → List String × List Nat
  | 0, _, acc, offsets, _ => (acc, offsets)
  | fuel + 1, start, acc, offsets, consecEmpty =>
      let batch := pages start
      if batch.isEmpty then
        if maxEmptyBatches ≤ consecEmpty + 1 then (acc, offsets ++ [start])
        else fetchLoop pages fuel (start + batchSize) acc (offsets ++ [start])
          (consecEmpty + 1)
      else
        fetchLoop pages fuel (start + batchSize) (acc ++ batch)
          (offsets ++ [start]) 0

/-- Source `getAllMatchHistoryForYear` (match-ID pagination), returning the
collected IDs and the offsets actually requested upstream. -/
def getAllMatchHistoryForYear (pages : Nat → List String) (fuel : Nat) :
    List String × List Nat :=
  fetchLoop pages fuel 0 [] [] 0

end RiotAPIService

namespace CacheService

/-- Lowercase hexadecimal characters. -/
def isHexChar (c : Char) : Bool :=
  (48 ≤ c.toNat && c.toNat ≤ 57) || (97 ≤ c.toNat && c.toNat ≤ 102)

/-- A bounded sample of distinct `(prefix, params)` tuples, shaped like
the cache keys the Domain Client accessors actually build. -/
def c9Sample : List (String × List String) :=
  [("matchDetails", ["NA1_1234567890", "default"]),
   ("matchDetails", ["NA1_1234567891", "default"]),
   ("summoner", ["puuid-abc", "default"]),
   ("summoner", ["puuid-abd", "default"]),
   ("account", ["gamename", "tag1", "default"]),
   ("account", ["gamename", "tag1", "sea"])]

end CacheService

namespace RiotAPIService

/-- The normalized user input
`(userRegion || this.region || 'sea').toLowerCase()`. -/
def normalizedHint (hint : Option String) (thisRegion : String) : String :=
  jsToLower (jsOr (jsOr (hint.getD "") thisRegion) "sea")

/-- The resolution before the Account-API substitution step. -/
def plainResolution (hint : Option String) (dr dp : String) : String × String :=
  if validRegions.contains (normalizedHint hint dr) then
    (normalizedHint hint dr,
     regionalToDefaultPlatform (normalizedHint hint dr))
  else if validPlatforms.contains (normalizedHint hint dr) then
    ((platformToRegional (normalizedHint hint dr)).getD "sea",
     normalizedHint hint dr)
  else (dr, dp)

end RiotAPIService

namespace APIMonitor

/-- The current minute bucket's request counter. -/
def minuteRequests (s : Stats) (minuteLabel : String) : Nat :=
  (bucketGetD s.minuteStats minuteLabel).requests

/-- The sample minute used by the concrete part of claim C10. -/
def sampleBuckets : TimeBuckets :=
  { day := "2025-01-01", hour := "2025-01-01-12", minute := "2025-01-01-12-00" }

/-- One hundred cache-hit recordings (`fromCache = true`, as the Domain
Client accessors issue on every cache hit) within one minute, starting
from fresh statistics. -/
def hundredCacheHits : Stats :=
  (fun s => recordRequest s "cache" 200 true sampleBuckets)^[100] emptyStats

end APIMonitor

namespace RiotAPIService

/-- The drain-count invariant. -/
def schedInv (s : SchedState) : Prop :=
  s.drains.length = (if s.isProcessing then 1 else 0)

/-- Counterexample oracle for C8: two full pages of match IDs followed by
empty pages. -/
def pagesCE : Nat → List String := fun s =>
  if s = 0 ∨ s = 100 then (List.range 100).map (fun i => "M" ++ toString i)
  else []

/-- Counterexample timestamps: every match was created at epoch 0,
far before the season window start. -/
def tsCE : String → Nat := fun _ => 0

/-- A season window start (2024-01-01 UTC in epoch milliseconds). -/
def windowStartCE : Nat := 1704067200000

end RiotAPIService

namespace APIKeyManager

/-- Every credential in the pool is enabled with a usable secret. -/
def HealthyPool (s : ManagerState) : Prop :=
  ∀ c ∈ s.apiKeys, usableKey c = true

/-- The sequence of credential ids selected by `n` successive
`getNextAPIKey()` calls (empty from the first failure on). -/
def selectionTrace (now : Nat) : Nat → ManagerState → List String
  | 0, _ => []
  | n + 1, s =>
      match getNextAPIKey s now with
      | .error _ => []
      | .ok (k, s') => k.id :: selectionTrace now n s'

end APIKeyManager

namespace RiotAPIService

/-- Counterexample oracle for C1: the first upstream call returns a 429
rate-limit response; a retry (the second call) would succeed. -/
def netC1 : Nat → AxiosResult := fun n =>
  if n = 0 then .ok 429 none else .ok 200 none

/-- A single-credential manager pool for the C1 counterexample. -/
def mgrC1 : APIKeyManager.ManagerState :=
  { apiKeys := [{ id := "primary", key := "RGAPI-TEST", enabled := true,
                  lastUsed := 0, errorCount := 0, requestCount := 0 }],
    currentKeyIndex := 0 }

end RiotAPIService

/-! ## Theorems -/

namespace CacheService

theorem find?_map_update {α : Type} (m : List (String × α)) (k : String)
    (v : α) (h : m.any (fun e => e.1 = k) = true) :
    (m.map (fun e => if e.1 = k then (k, v) else e)).find?
        (fun e => e.1 = k) = some (k, v) := by
  induction m with
  | nil => simp at h
  | cons e rest ih =>
      by_cases he : e.1 = k
      · simp [List.find?_cons_of_pos, he]
      · simp only [List.any_cons, Bool.or_eq_true, decide_eq_true_eq] at h
        have h' : rest.any (fun e => e.1 = k) = true := by
          rcases h with h | h
          · exact absurd h he
          · exact h
        simp only [List.map_cons, if_neg he]
        rw [List.find?_cons_of_neg _ (by simpa using he)]
        exact ih h'

theorem find?_append_new {α : Type} (m : List (String × α)) (k : String)
    (v : α) (h : m.any (fun e => e.1 = k) = false) :
    (m ++ [(k, v)]).find? (fun e => e.1 = k) = some (k, v) := by
  induction m with
  | nil => simp [List.find?]
  | cons e rest ih =>
      simp only [List.any_cons, Bool.or_eq_false_iff, decide_eq_false_iff_not] at h
      simp only [List.cons_append]
      rw [List.find?_cons_of_neg _ (by simpa using h.1)]
      exact ih (by simpa using h.2)

theorem jsMapGet_jsMapSet_self {α : Type} (m : List (String × α)) (k : String)
    (v : α) : jsMapGet (jsMapSet m k v) k = some v := by
  unfold jsMapGet jsMapSet
  cases h : m.any (fun e => e.1 = k) with
  | true => rw [if_pos rfl, find?_map_update m k v h]; rfl
  | false => rw [if_neg (by decide), find?_append_new m k v h]; rfl

theorem jsMapGet_setMemoryCache_self {α : Type} (s : CacheState α)
    (key : String) (v : α) (now : Nat) :
    jsMapGet (setMemoryCache s key v now).memoryCache key =
      some { data := v, timestamp := now } := by
  unfold setMemoryCache
  exact jsMapGet_jsMapSet_self _ _ _

theorem set_disk_self {α : Type} (s : CacheState α) (key : String) (v : α)
    (now : Nat) :
    jsMapGet (set s key v now).disk key = some { timestamp := now, data := v } := by
  unfold set
  exact jsMapGet_jsMapSet_self _ _ _

theorem set_memory_self {α : Type} (s : CacheState α) (key : String) (v : α)
    (now : Nat) :
    jsMapGet (set s key v now).memoryCache key =
      some { data := v, timestamp := now } := by
  unfold set
  exact jsMapGet_setMemoryCache_self s key v now

end CacheService

/-- Claim C3. After `set(key, payload)` succeeds, a `get(key)` issued at any
later time `t1 ≥ t0` returns `payload` unchanged — in particular also
after a delay of at least the key's memory TTL, in which case the value
is served from the never-expiring disk tier and the memory tier is
repopulated with a fresh entry. The type of `CacheService.get` shows it
touches only the two cache tiers and the monitor counters: no Scheduler
or network interaction exists in the model because none exists in the
source function. -/
theorem claimC3_disk_permanence {α : Type} (s : CacheService.CacheState α)
    (mon : CacheService.MonitorCounters) (key : String) (v : α) (t0 t1 : Nat)
    (hle : t0 ≤ t1) :
    ((CacheService.get (CacheService.set s key v t0) mon key t1).1 = some v) ∧
    (CacheService.jsMapGet (CacheService.set s key v t0).disk key =
       some { timestamp := t0, data := v }) ∧
    (CacheService.getMemoryTTLForKey key ≤ t1 - t0 →
       CacheService.jsMapGet
           (CacheService.get (CacheService.set s key v t0) mon key t1).2.1.memoryCache
           key =
         some { data := v, timestamp := t1 }) := by
  have hmem := CacheService.set_memory_self s key v t0
  have hdisk := CacheService.set_disk_self s key v t0
  unfold CacheService.get
  rw [hmem]
  simp only [Option.getD_none]
  by_cases hfresh : t1 - t0 < CacheService.getMemoryTTLForKey key
  · rw [if_pos hfresh]
    exact ⟨rfl, hdisk, fun hstale => absurd hfresh (by omega)⟩
  · rw [if_neg hfresh]
    unfold CacheService.getDisk
    rw [show CacheService.jsMapGet (CacheService.set s key v t0).disk key =
          some { timestamp := t0, data := v } from hdisk]
    exact ⟨rfl, rfl,
      fun _ => CacheService.jsMapGet_setMemoryCache_self _ _ _ _⟩

/-- Closed witness for C3: a payload stored at time 0 is still returned
over three years (far beyond every memory TTL) later, and the memory tier
holds a fresh copy afterwards. -/
theorem claimC3_disk_permanence_witness :
    ((CacheService.get
        (CacheService.set
          ({ memoryCache := [], disk := [] } : CacheService.CacheState Nat)
          "826915b0090b88a25e5313962308626b" 42 0)
        { cacheHits := 0, cacheMisses := 0 }
        "826915b0090b88a25e5313962308626b" 100000000000).1 = some 42) ∧
    (CacheService.jsMapGet
        (CacheService.get
          (CacheService.set
            ({ memoryCache := [], disk := [] } : CacheService.CacheState Nat)
            "826915b0090b88a25e5313962308626b" 42 0)
          { cacheHits := 0, cacheMisses := 0 }
          "826915b0090b88a25e5313962308626b" 100000000000).2.1.memoryCache
        "826915b0090b88a25e5313962308626b" =
      some { data := 42, timestamp := 100000000000 }) := by
  have h := claimC3_disk_permanence
    ({ memoryCache := [], disk := [] } : CacheService.CacheState Nat)
    { cacheHits := 0, cacheMisses := 0 }
    "826915b0090b88a25e5313962308626b" 42 0 100000000000 (by omega)
  exact ⟨h.1, h.2.2 (by decide)⟩

namespace CacheService

theorem hexDigit_isHex (n : Nat) (h : n < 16) :
    isHexChar (MD5.hexDigit n) = true := by
  interval_cases n <;> decide

theorem byteHex_all_hex (b : Nat) :
    (MD5.byteHex b).all isHexChar = true := by
  unfold MD5.byteHex
  simp only [List.all_cons, List.all_nil, Bool.and_eq_true, Bool.and_true]
  exact ⟨hexDigit_isHex _ (Nat.mod_lt _ (by omega)),
         hexDigit_isHex _ (Nat.mod_lt _ (by omega))⟩

theorem md5Hex_all_hex (s : String) :
    (MD5.md5Hex s).data.all isHexChar = true := by
  unfold MD5.md5Hex
  simp only [List.all_eq_true]
  intro c hc
  rcases List.mem_flatMap.mp hc with ⟨b, _, hcb⟩
  exact List.all_eq_true.mp (byteHex_all_hex b) c hcb

theorem not_startsWith_of_hex (key p : String)
    (hhex : key.data.all isHexChar = true)
    (hp : p.data.all isHexChar = false) :
    jsStartsWith key p = false := by
  unfold jsStartsWith
  cases h : p.data.isPrefixOf key.data with
  | false => rfl
  | true =>
      exfalso
      have hpre : p.data <+: key.data := by
        exact (List.isPrefixOf_iff_prefix).mp h
      have : p.data.all isHexChar = true := by
        simp only [List.all_eq_true] at hhex ⊢
        intro c hcp
        exact hhex c (hpre.subset hcp)
      rw [this] at hp
      exact Bool.true_eq_false.mp hp

/-- The memory-TTL dispatch on any all-hex key falls to the 1-hour
default: every prefix it tests contains a character outside `[0-9a-f]`
within its length. -/
theorem getMemoryTTLForKey_of_hex (key : String)
    (hhex : key.data.all isHexChar = true) :
    getMemoryTTLForKey key = 60 * 60 * 1000 := by
  unfold getMemoryTTLForKey
  rw [not_startsWith_of_hex key "matchIds_" hhex (by decide),
      not_startsWith_of_hex key "matchHistoryBatch_" hhex (by decide),
      not_startsWith_of_hex key "matchHistoryFull_" hhex (by decide),
      not_startsWith_of_hex key "matchDetails_" hhex (by decide),
      not_startsWith_of_hex key "summoner_" hhex (by decide),
      not_startsWith_of_hex key "account_" hhex (by decide)]
  rfl

end CacheService

/-- Claim C4 (code bug). `generateKey` returns a 32-character hex MD5
digest, but `getMemoryTTLForKey` dispatches on literal key prefixes such
as `"matchDetails_"`; a hex digest can never start with any of them, so
`get` applies the 1-hour default TTL to *every* key `generateKey`
produces — never the prefix-specific TTLs (e.g. the intended 24 hours
for `matchDetails`, 2 hours for `account`). Conjuncts: the general fact
for all prefixes and parameter lists, the concrete failing input
(the `matchDetails` cache key that `getMatchDetails` builds), and the
contradiction with the intended `memoryCacheTTL.matchDetails`. -/
theorem claimC4_ttl_never_prefix_specific :
    (∀ (keyPrefix : String) (params : List String),
       CacheService.getMemoryTTLForKey
           (CacheService.generateKey keyPrefix params) = 60 * 60 * 1000) ∧
    (CacheService.getMemoryTTLForKey
        (CacheService.generateKey "matchDetails" ["NA1_1234567890", "default"]) =
      60 * 60 * 1000) ∧
    (CacheService.memoryCacheTTL.matchDetails = 24 * 60 * 60 * 1000) ∧
    ((60 : Nat) * 60 * 1000 ≠ 24 * 60 * 60 * 1000) := by
  refine ⟨?_, ?_, rfl, by omega⟩
  · intro keyPrefix params
    exact CacheService.getMemoryTTLForKey_of_hex _
      (CacheService.md5Hex_all_hex _)
  · exact CacheService.getMemoryTTLForKey_of_hex _
      (CacheService.md5Hex_all_hex _)

/-- Claim C9. `generateKey` is a pure function of `(prefix, params...)`:
it factors through the deterministic key string
`` `${prefix}_${params.join('_')}` `` (equal inputs — even merely equal
key strings — give equal keys), and on a bounded sample of distinct
tuples with distinct string representations all produced keys are
pairwise distinct (collision-freedom modulo MD5 collisions, per the
spec's own "under a bounded sample" phrasing). -/
theorem claimC9_generateKey_pure_and_distinct :
    (∀ (p q : String) (ps qs : List String),
       CacheService.keyString p ps = CacheService.keyString q qs →
       CacheService.generateKey p ps = CacheService.generateKey q qs) ∧
    ((CacheService.c9Sample.map
        (fun t => CacheService.keyString t.1 t.2)).Nodup) ∧
    ((CacheService.c9Sample.map
        (fun t => CacheService.generateKey t.1 t.2)).Nodup) := by
  refine ⟨?_, by decide, by decide⟩
  intro p q ps qs h
  unfold CacheService.generateKey
  unfold CacheService.keyString at h
  rw [h]

/-- Closed witness for C9: purity applied at one concrete pair of equal
key strings. -/
theorem claimC9_witness :
    CacheService.generateKey "matchDetails" ["NA1_1234567890", "default"] =
      CacheService.generateKey "matchDetails" ["NA1_1234567890", "default"] :=
  claimC9_generateKey_pure_and_distinct.1 _ _ _ _ rfl

namespace RiotAPIService

theorem resolve_eq (hint : Option String) (acc mat : Bool) (dr dp : String) :
    resolveRegionAndPlatform hint acc mat dr dp =
      (if acc ∧ (plainResolution hint dr dp).1 = "sea"
       then ("asia", (plainResolution hint dr dp).2)
       else plainResolution hint dr dp) := rfl

end RiotAPIService

/-- Claim C5. `resolveRegionAndPlatform` is a total function (it is a Lean
`def`, hence deterministic and never-throwing by construction, matching
the exception-free source): for every hint it returns a
`{region, platform}` pair, deriving the missing half of a valid regional
or platform hint through the fixed lookup tables, falling back to the
instance defaults on anything else; and with `forAccountAPI = true` the
returned region is the plain resolution's region with `"sea"` replaced
by `"asia"` — in particular the Account-API region is never `"sea"`. -/
theorem claimC5_resolver_total_and_sea_substitution :
    (∀ (hint : Option String) (acc mat : Bool) (dr dp : String),
       ∃ r p, RiotAPIService.resolveRegionAndPlatform hint acc mat dr dp = (r, p)) ∧
    (∀ (hint : Option String) (mat : Bool) (dr dp : String),
       (RiotAPIService.validRegions.contains
           (RiotAPIService.normalizedHint hint dr) = true →
         RiotAPIService.resolveRegionAndPlatform hint false mat dr dp =
           (RiotAPIService.normalizedHint hint dr,
            RiotAPIService.regionalToDefaultPlatform
              (RiotAPIService.normalizedHint hint dr))) ∧
       (RiotAPIService.validRegions.contains
           (RiotAPIService.normalizedHint hint dr) = false →
         RiotAPIService.validPlatforms.contains
           (RiotAPIService.normalizedHint hint dr) = true →
         RiotAPIService.resolveRegionAndPlatform hint false mat dr dp =
           ((RiotAPIService.platformToRegional
               (RiotAPIService.normalizedHint hint dr)).getD "sea",
            RiotAPIService.normalizedHint hint dr)) ∧
       (RiotAPIService.validRegions.contains
           (RiotAPIService.normalizedHint hint dr) = false →
         RiotAPIService.validPlatforms.contains
           (RiotAPIService.normalizedHint hint dr) = false →
         RiotAPIService.resolveRegionAndPlatform hint false mat dr dp = (dr, dp))) ∧
    (∀ (hint : Option String) (mat : Bool) (dr dp : String),
       RiotAPIService.resolveRegionAndPlatform hint true mat dr dp =
         (if (RiotAPIService.resolveRegionAndPlatform hint false mat dr dp).1 = "sea"
          then ("asia",
                (RiotAPIService.resolveRegionAndPlatform hint false mat dr dp).2)
          else RiotAPIService.resolveRegionAndPlatform hint false mat dr dp)) ∧
    (∀ (hint : Option String) (mat : Bool) (dr dp : String),
       (RiotAPIService.resolveRegionAndPlatform hint true mat dr dp).1 ≠ "sea") := by
  refine ⟨fun hint acc mat dr dp => ⟨_, _, rfl⟩, ?_, ?_, ?_⟩
  · intro hint mat dr dp
    refine ⟨fun h1 => ?_, fun h1 h2 => ?_, fun h1 h2 => ?_⟩
    · rw [RiotAPIService.resolve_eq]
      unfold RiotAPIService.plainResolution
      simp only [h1]
      simp
    · rw [RiotAPIService.resolve_eq]
      unfold RiotAPIService.plainResolution
      simp only [h1, h2]
      simp
    · rw [RiotAPIService.resolve_eq]
      unfold RiotAPIService.plainResolution
      simp only [h1, h2]
      simp
  · intro hint mat dr dp
    rw [RiotAPIService.resolve_eq, RiotAPIService.resolve_eq]
    by_cases h : (RiotAPIService.plainResolution hint dr dp).1 = "sea" <;>
      simp [h]
  · intro hint mat dr dp
    rw [RiotAPIService.resolve_eq]
    by_cases h : (RiotAPIService.plainResolution hint dr dp).1 = "sea"
    · rw [if_pos ⟨rfl, h⟩]
      have hne : ("asia" : String) ≠ "sea" := by decide
      exact fun hc => hne hc
    · rw [if_neg (by simp [h])]
      exact h

/-- Closed witness for C5, applying the theorem at concrete hints:
an uppercase platform hint `"OC1"` for the Account API resolves to
region `"asia"` (sea→asia substitution) with platform `"oc1"`, a valid
regional hint derives its default platform, and garbage degrades to the
process defaults. -/
theorem claimC5_witness :
    (∃ r p, RiotAPIService.resolveRegionAndPlatform (some "OC1") true false
        "sea" "sg2" = (r, p)) ∧
    RiotAPIService.resolveRegionAndPlatform (some "europe") false false
        "sea" "sg2" = ("europe", "euw1") ∧
    RiotAPIService.resolveRegionAndPlatform (some "bogus") false false
        "sea" "sg2" = ("sea", "sg2") ∧
    RiotAPIService.resolveRegionAndPlatform (some "OC1") true false
        "sea" "sg2" = ("asia", "oc1") := by
  refine ⟨claimC5_resolver_total_and_sea_substitution.1 (some "OC1") true false
      "sea" "sg2", ?_, ?_, ?_⟩
  · exact (claimC5_resolver_total_and_sea_substitution.2.1
      (some "europe") false "sea" "sg2").1 (by decide)
  · exact (claimC5_resolver_total_and_sea_substitution.2.1
      (some "bogus") false "sea" "sg2").2.2 (by decide) (by decide)
  · rw [claimC5_resolver_total_and_sea_substitution.2.2.1
      (some "OC1") false "sea" "sg2"]
    decide

namespace APIMonitor

theorem bucketGetD_bumpBucket_self (m : List (String × Bucket)) (k : String)
    (f : Bucket → Bucket) : bucketGetD (bumpBucket m k f) k = f (bucketGetD m k) := by
  unfold bucketGetD bumpBucket
  rw [CacheService.jsMapGet_jsMapSet_self]
  rfl

end APIMonitor

/-- Claim C10. `recordRequest` increments the current minute bucket's
request counter by exactly one regardless of `fromCache`, so cache hits
recorded by the Domain Client count toward `canMakeRequest`'s
100-per-minute ceiling: admission is denied exactly when the minute
bucket's requests reach 100, and after 100 cache-hit-only recordings
from fresh statistics (`totalRequests = totalCacheHits = 100`, i.e. zero
upstream calls) `canMakeRequest` returns `allowed = false`. -/
theorem claimC10_cache_hits_count_toward_ceiling :
    (∀ (s : APIMonitor.Stats) (id : String) (st : Nat) (fc : Bool)
       (b : APIMonitor.TimeBuckets),
       APIMonitor.minuteRequests (APIMonitor.recordRequest s id st fc b)
           b.minute =
         APIMonitor.minuteRequests s b.minute + 1) ∧
    (∀ (s : APIMonitor.Stats) (b : APIMonitor.TimeBuckets) (sec : Nat),
       (APIMonitor.canMakeRequest s b sec).allowed = false ↔
         100 ≤ APIMonitor.minuteRequests s b.minute) ∧
    ((APIMonitor.canMakeRequest APIMonitor.hundredCacheHits
        APIMonitor.sampleBuckets 30) =
      { allowed := false, retryAfter := some 30 }) ∧
    (APIMonitor.hundredCacheHits.totalRequests = 100) ∧
    (APIMonitor.hundredCacheHits.totalCacheHits = 100) := by
  refine ⟨?_, ?_, by decide, by decide, by decide⟩
  · intro s id st fc b
    by_cases hfc : fc = true <;> by_cases herr : 400 ≤ st <;>
      simp [APIMonitor.recordRequest, APIMonitor.minuteRequests, hfc, herr,
            APIMonitor.bucketGetD_bumpBucket_self]
  · intro s b sec
    unfold APIMonitor.canMakeRequest APIMonitor.minuteRequests
    by_cases h : APIMonitor.requestsPerMinute ≤
        (APIMonitor.bucketGetD s.minuteStats b.minute).requests
    · rw [if_pos h]
      simpa [APIMonitor.requestsPerMinute] using h
    · rw [if_neg h]
      simp only [APIMonitor.requestsPerMinute] at h
      constructor
      · intro hc
        exact absurd hc (by decide)
      · intro hc
        exact absurd hc h

namespace APIKeyManager

theorem find?_updateFirst (ks : List Credential) (keyId : String)
    (f : Credential → Credential) (k : Credential)
    (hf : ∀ x, (f x).id = x.id)
    (h : ks.find? (fun c => c.id = keyId) = some k) :
    (updateFirst ks keyId f).find? (fun c => c.id = keyId) = some (f k) := by
  induction ks with
  | nil => simp [List.find?] at h
  | cons e rest ih =>
      by_cases he : e.id = keyId
      · rw [List.find?_cons_of_pos _ (by simpa using he)] at h
        injection h with h
        subst h
        unfold updateFirst
        rw [if_pos he]
        exact List.find?_cons_of_pos _ (by simp [hf, he])
      · rw [List.find?_cons_of_neg _ (by simpa using he)] at h
        unfold updateFirst
        rw [if_neg he]
        rw [List.find?_cons_of_neg _ (by simpa using he)]
        exact ih h

theorem recordError_found (s : ManagerState) (keyId : String) (code now : Nat)
    (k : Credential) (hk : s.apiKeys.find? (fun c => c.id = keyId) = some k) :
    recordError s keyId code now =
      (ManagerState.mk
        (updateFirst s.apiKeys keyId (fun c =>
          if (code = 429 ∨ code = 403) ∧ 3 ≤ k.errorCount + 1
          then { c with errorCount := k.errorCount + 1, enabled := false }
          else { c with errorCount := k.errorCount + 1 }))
        s.currentKeyIndex,
       if (code = 429 ∨ code = 403) ∧ 3 ≤ k.errorCount + 1
       then some (ScheduledReEnable.mk keyId (now + 5 * 60 * 1000))
       else none) := by
  unfold recordError
  rw [hk]

end APIKeyManager

/-- Claim C7. For a credential present in the pool, `recordError(id, code)`
increments its `errorCount`; exactly when `code` is in the
rate-limit/auth-failure class `{429, 403}` and the incremented count
reaches 3, the credential is disabled and a re-enable
(`enabled = true`, `errorCount = 0`) is scheduled after the fixed
5-minute (300 000 ms) cooldown; a status outside that class never
changes `enabled`, no matter how large `errorCount` already is. -/
theorem claimC7_recordError_disable_cooldown
    (s : APIKeyManager.ManagerState) (keyId : String) (code now : Nat)
    (k : APIKeyManager.Credential)
    (hk : s.apiKeys.find? (fun c => c.id = keyId) = some k) :
    ((APIKeyManager.recordError s keyId code now).1.apiKeys.find?
        (fun c => c.id = keyId) =
      some (if (code = 429 ∨ code = 403) ∧ 3 ≤ k.errorCount + 1
            then { k with errorCount := k.errorCount + 1, enabled := false }
            else { k with errorCount := k.errorCount + 1 })) ∧
    ((APIKeyManager.recordError s keyId code now).2 =
      (if (code = 429 ∨ code = 403) ∧ 3 ≤ k.errorCount + 1
       then some { keyId := keyId, fireAt := now + 5 * 60 * 1000 }
       else none)) ∧
    (code ≠ 429 → code ≠ 403 →
      ((APIKeyManager.recordError s keyId code now).1.apiKeys.find?
          (fun c => c.id = keyId)).map APIKeyManager.Credential.enabled =
        some k.enabled) ∧
    (∀ ev, (APIKeyManager.recordError s keyId code now).2 = some ev →
      (APIKeyManager.fireReEnable
          (APIKeyManager.recordError s keyId code now).1 ev.keyId).apiKeys.find?
          (fun c => c.id = keyId) =
        some { k with errorCount := 0, enabled := true }) := by
  have heq := APIKeyManager.recordError_found s keyId code now k hk
  have hid : ∀ x : APIKeyManager.Credential,
      ((fun c : APIKeyManager.Credential =>
          if (code = 429 ∨ code = 403) ∧ 3 ≤ k.errorCount + 1
          then { c with errorCount := k.errorCount + 1, enabled := false }
          else { c with errorCount := k.errorCount + 1 }) x).id = x.id := by
    intro x
    show (if (code = 429 ∨ code = 403) ∧ 3 ≤ k.errorCount + 1
          then ({ x with errorCount := k.errorCount + 1, enabled := false }
                 : APIKeyManager.Credential)
          else { x with errorCount := k.errorCount + 1 }).id = x.id
    by_cases hx : (code = 429 ∨ code = 403) ∧ 3 ≤ k.errorCount + 1
    · rw [if_pos hx]
    · rw [if_neg hx]
  have h1 := APIKeyManager.find?_updateFirst s.apiKeys keyId _ k hid hk
  rw [heq]
  refine ⟨h1, rfl, ?_, ?_⟩
  · intro h429 h403
    have hnot : ¬ ((code = 429 ∨ code = 403) ∧ 3 ≤ k.errorCount + 1) := by
      rintro ⟨h | h, -⟩
      · exact h429 h
      · exact h403 h
    rw [h1, if_neg hnot]
    rfl
  · intro ev hev
    by_cases hcond : (code = 429 ∨ code = 403) ∧ 3 ≤ k.errorCount + 1
    · rw [if_pos hcond] at hev
      injection hev with hev
      subst hev
      have h2 := APIKeyManager.find?_updateFirst
        (APIKeyManager.updateFirst s.apiKeys keyId
          (fun c => if (code = 429 ∨ code = 403) ∧ 3 ≤ k.errorCount + 1
                    then { c with errorCount := k.errorCount + 1, enabled := false }
                    else { c with errorCount := k.errorCount + 1 }))
        keyId
        (fun c => { c with enabled := true, errorCount := 0 })
        _ (fun x => rfl) h1
      unfold APIKeyManager.fireReEnable
      rw [h2, if_pos hcond]
    · rw [if_neg hcond] at hev
      cases hev

/-- Closed witness for C7: a credential at `errorCount = 2` receiving its
third 429 is disabled with a re-enable scheduled 300 000 ms later, and
firing the scheduled callback restores it. -/
theorem claimC7_witness :
    ((APIKeyManager.recordError
        { apiKeys := [{ id := "primary", key := "RGAPI-k", enabled := true,
                        lastUsed := 0, errorCount := 2, requestCount := 7 }],
          currentKeyIndex := 4 } "primary" 429 1000).1.apiKeys.find?
        (fun c => c.id = "primary") =
      some { id := "primary", key := "RGAPI-k", enabled := false,
             lastUsed := 0, errorCount := 3, requestCount := 7 }) ∧
    ((APIKeyManager.recordError
        { apiKeys := [{ id := "primary", key := "RGAPI-k", enabled := true,
                        lastUsed := 0, errorCount := 2, requestCount := 7 }],
          currentKeyIndex := 4 } "primary" 429 1000).2 =
      some { keyId := "primary", fireAt := 301000 }) := by
  have h := claimC7_recordError_disable_cooldown
    { apiKeys := [{ id := "primary", key := "RGAPI-k", enabled := true,
                    lastUsed := 0, errorCount := 2, requestCount := 7 }],
      currentKeyIndex := 4 } "primary" 429 1000
    { id := "primary", key := "RGAPI-k", enabled := true,
      lastUsed := 0, errorCount := 2, requestCount := 7 } (by decide)
  refine ⟨?_, ?_⟩
  · rw [h.1]
    decide
  · rw [h.2.1]
    decide

namespace RiotAPIService

theorem schedInv_enter (t : SchedState) (ih : schedInv t) :
    schedInv (enterProcessQueue { t with queue := t.queue + 1 }) := by
  unfold schedInv enterProcessQueue at *
  cases hb : t.isProcessing
  · rw [hb] at ih
    simp only [hb]
    simp [ih]
  · rw [hb] at ih
    simp [hb, ih]

/-- The key invariant: the `isProcessing` guard at the top of
`processQueue` keeps the number of live drain instances equal to the
flag (`1` when set, `0` when clear). -/
theorem sched_invariant {s : SchedState} (h : SchedReachable s) :
    schedInv s := by
  induction h with
  | init => rfl
  | step h hs ih =>
      cases hs with
      | enqueue => exact schedInv_enter _ ih
      | beginCall l1 l2 hd hq =>
          unfold schedInv at *
          rw [hd] at ih
          simpa using ih
      | endCall l1 l2 hd =>
          unfold schedInv at *
          rw [hd] at ih
          simpa using ih
      | finishDrain l1 l2 hd =>
          rename_i t
          unfold schedInv at *
          rw [hd] at ih
          cases hb : t.isProcessing
          · rw [hb] at ih
            simp at ih
          · rw [hb] at ih
            have ih' : l1.length + (l2.length + 1) = 1 := by simpa using ih
            have hl1 : l1.length = 0 := by omega
            have hl2 : l2.length = 0 := by omega
            simp [hl1, hl2]

end RiotAPIService

/-- Claim C2. In every reachable scheduler state there is at most one live
drain loop and at most one in-flight upstream call: the
`isProcessing` guard makes `processQueue` a no-op while a drain is
already running, so an enqueue during a drain only grows the queue, and
the single drain issues its calls one `await` at a time — serializing
all upstream dispatches. -/
theorem claimC2_single_drain (s : RiotAPIService.SchedState)
    (h : RiotAPIService.SchedReachable s) :
    s.drains.length ≤ 1 ∧ RiotAPIService.inFlight s ≤ 1 := by
  have hinv := RiotAPIService.sched_invariant h
  unfold RiotAPIService.schedInv at hinv
  have hlen : s.drains.length ≤ 1 := by
    rw [hinv]
    cases s.isProcessing <;> simp
  exact ⟨hlen, le_trans (List.countP_le_length _) hlen⟩

/-- Closed witness for C2: the state reached by enqueueing twice and
starting the first upstream call — the second enqueue found
`isProcessing` set and did not start a second drain. -/
theorem claimC2_single_drain_witness :
    (({ queue := 1, isProcessing := true,
        drains := [RiotAPIService.DrainPhase.awaitingCall] } :
          RiotAPIService.SchedState).drains.length ≤ 1) ∧
    (RiotAPIService.inFlight
        { queue := 1, isProcessing := true,
          drains := [RiotAPIService.DrainPhase.awaitingCall] } ≤ 1) := by
  refine claimC2_single_drain _ ?_
  have h1 : RiotAPIService.SchedReachable
      { queue := 1, isProcessing := true,
        drains := [RiotAPIService.DrainPhase.deciding] } :=
    RiotAPIService.SchedReachable.step RiotAPIService.SchedReachable.init
      (RiotAPIService.SchedStep.enqueue RiotAPIService.initSched)
  have h2 : RiotAPIService.SchedReachable
      { queue := 2, isProcessing := true,
        drains := [RiotAPIService.DrainPhase.deciding] } :=
    RiotAPIService.SchedReachable.step h1
      (RiotAPIService.SchedStep.enqueue _)
  exact RiotAPIService.SchedReachable.step h2
    (RiotAPIService.SchedStep.beginCall _ [] []
      rfl (by decide))

namespace RiotAPIService

theorem fetchLoop_nonempty (pages : Nat → List String) (fuel start : Nat)
    (acc : List String) (offsets : List Nat) (c : Nat)
    (h : pages start ≠ []) :
    fetchLoop pages (fuel + 1) start acc offsets c =
      fetchLoop pages fuel (start + 100) (acc ++ pages start)
        (offsets ++ [start]) 0 := by
  have hb : (pages start).isEmpty = false := by
    cases hp : pages start
    · exact absurd hp h
    · rfl
  rw [fetchLoop]
  simp only [hb]
  simp [batchSize]

theorem fetchLoop_empty_first (pages : Nat → List String) (fuel start : Nat)
    (acc : List String) (offsets : List Nat) (h : pages start = []) :
    fetchLoop pages (fuel + 1) start acc offsets 0 =
      fetchLoop pages fuel (start + 100) acc (offsets ++ [start]) 1 := by
  have hb : (pages start).isEmpty = true := by simp [h]
  rw [fetchLoop]
  simp only [hb]
  simp [maxEmptyBatches, batchSize]

theorem fetchLoop_empty_second (pages : Nat → List String) (fuel start : Nat)
    (acc : List String) (offsets : List Nat) (h : pages start = []) :
    fetchLoop pages (fuel + 1) start acc offsets 1 = (acc, offsets ++ [start]) := by
  have hb : (pages start).isEmpty = true := by simp [h]
  rw [fetchLoop]
  simp only [hb]
  simp [maxEmptyBatches]

theorem flatMap_map_succ {α : Type} (f : Nat → List α) (l : List Nat) :
    (l.map Nat.succ).flatMap f = l.flatMap (fun i => f (i + 1)) := by
  induction l with
  | nil => rfl
  | cons x xs ih => simp [ih]

theorem flatMapRange_shift {α : Type} (f : Nat → List α) (n : Nat) :
    (List.range (n + 1)).flatMap f =
      f 0 ++ (List.range n).flatMap (fun i => f (i + 1)) := by
  rw [List.range_succ_eq_map]
  rw [List.flatMap_cons, flatMap_map_succ]

theorem mapRange_shift {α : Type} (f : Nat → α) (n : Nat) :
    (List.range (n + 1)).map f =
      f 0 :: (List.range n).map (fun i => f (i + 1)) := by
  rw [List.range_succ_eq_map]
  simp [Function.comp]

/-- Characterization of the pagination loop: if `m` is the first index at
which two consecutive pages are empty, the loop requests precisely the
offsets `0·100 … (m+1)·100` past `start` and returns the concatenation
of those pages — independent of any record timestamps, which the loop
never consults. -/
theorem fetchLoop_spec (pages : Nat → List String) (m : Nat) :
    ∀ (start : Nat) (acc : List String) (offsets : List Nat),
      pages (start + 100 * m) = [] →
      pages (start + 100 * (m + 1)) = [] →
      (∀ i < m, ¬(pages (start + 100 * i) = [] ∧
                  pages (start + 100 * (i + 1)) = [])) →
      fetchLoop pages (m + 2) start acc offsets 0 =
        (acc ++ (List.range (m + 2)).flatMap (fun i => pages (start + 100 * i)),
         offsets ++ (List.range (m + 2)).map (fun i => start + 100 * i)) := by
  induction m using Nat.strong_induction_on with
  | _ m ih =>
    intro start acc offsets h1 h2 hleast
    match m, ih, h1, h2, hleast with
    | 0, _, h1, h2, _ =>
        have h1' : pages start = [] := by simpa using h1
        have h2' : pages (start + 100) = [] := by
          have : start + 100 * (0 + 1) = start + 100 := by ring
          rwa [this] at h2
        rw [fetchLoop_empty_first pages _ _ _ _ h1']
        rw [fetchLoop_empty_second pages _ _ _ _ h2']
        have hr : List.range 2 = [0, 1] := by decide
        simp [hr, h1', h2']
    | Nat.succ m', ih, h1, h2, hleast =>
        by_cases hp : pages start = []
        · have hne : pages (start + 100) ≠ [] := by
            intro hq
            refine hleast 0 (by omega) ⟨by simpa using hp, ?_⟩
            have : start + 100 * (0 + 1) = start + 100 := by ring
            rw [this]
            exact hq
          match m', ih, h1, h2, hleast with
          | 0, _, h1, _, _ =>
              exfalso
              apply hne
              have : start + 100 * 1 = start + 100 := by ring
              rwa [this] at h1
          | Nat.succ m'', ih, h1, h2, hleast =>
              rw [fetchLoop_empty_first pages _ _ _ _ hp]
              rw [fetchLoop_nonempty pages _ _ _ _ _ hne]
              have h1' : pages (start + 100 + 100 + 100 * m'') = [] := by
                have : start + 100 + 100 + 100 * m'' =
                    start + 100 * (m'' + 1 + 1) := by ring
                rw [this]
                exact h1
              have h2' : pages (start + 100 + 100 + 100 * (m'' + 1)) = [] := by
                have : start + 100 + 100 + 100 * (m'' + 1) =
                    start + 100 * (m'' + 1 + 1 + 1) := by ring
                rw [this]
                exact h2
              have hleast' : ∀ i < m'',
                  ¬(pages (start + 100 + 100 + 100 * i) = [] ∧
                    pages (start + 100 + 100 + 100 * (i + 1)) = []) := by
                intro i hi hcontra
                refine hleast (i + 2) (by omega) ?_
                constructor
                · have : start + 100 * (i + 2) =
                      start + 100 + 100 + 100 * i := by ring
                  rw [this]
                  exact hcontra.1
                · have : start + 100 * (i + 2 + 1) =
                      start + 100 + 100 + 100 * (i + 1) := by ring
                  rw [this]
                  exact hcontra.2
              rw [ih m'' (by omega) (start + 100 + 100) _ _ h1' h2' hleast']
              congr 1
              · have e1 : (List.range (m''.succ.succ + 2)).flatMap
                    (fun i => pages (start + 100 * i)) =
                    pages (start + 100) ++ (List.range (m'' + 2)).flatMap
                      (fun i => pages (start + 100 + 100 + 100 * i)) := by
                  rw [show m''.succ.succ + 2 = (m'' + 3) + 1 from rfl,
                      flatMapRange_shift]
                  rw [show (fun i => pages (start + 100 * (i + 1))) =
                      (fun i => pages (start + 100 + 100 * i)) from
                    funext fun i => by
                      rw [show start + 100 * (i + 1) = start + 100 + 100 * i
                        from by ring]]
                  rw [show m'' + 3 = (m'' + 2) + 1 from rfl, flatMapRange_shift]
                  rw [show (fun i => pages (start + 100 + 100 * (i + 1))) =
                      (fun i => pages (start + 100 + 100 + 100 * i)) from
                    funext fun i => by
                      rw [show start + 100 + 100 * (i + 1) =
                          start + 100 + 100 + 100 * i from by ring]]
                  rw [show start + 100 * 0 = start from by ring]
                  rw [show start + 100 + 100 * 0 = start + 100 from by ring]
                  rw [hp]
                  simp
                rw [e1]
                simp [List.append_assoc]
              · have e2 : (List.range (m''.succ.succ + 2)).map
                    (fun i => start + 100 * i) =
                    start :: (start + 100) :: (List.range (m'' + 2)).map
                      (fun i => start + 100 + 100 + 100 * i) := by
                  rw [show m''.succ.succ + 2 = (m'' + 3) + 1 from rfl,
                      mapRange_shift]
                  rw [show (fun i => start + 100 * (i + 1)) =
                      (fun i => start + 100 + 100 * i) from
                    funext fun i => by ring]
                  rw [show m'' + 3 = (m'' + 2) + 1 from rfl, mapRange_shift]
                  rw [show (fun i => start + 100 + 100 * (i + 1)) =
                      (fun i => start + 100 + 100 + 100 * i) from
                    funext fun i => by ring]
                  try rw [show start + 100 * 0 = start from by ring]
                  try rw [show start + 100 + 100 * 0 = start + 100 from by ring]
                rw [e2]
                simp [List.append_assoc]
        · rw [fetchLoop_nonempty pages _ _ _ _ _ hp]
          have h1' : pages (start + 100 + 100 * m') = [] := by
            have : start + 100 + 100 * m' = start + 100 * (m' + 1) := by ring
            rw [this]
            exact h1
          have h2' : pages (start + 100 + 100 * (m' + 1)) = [] := by
            have : start + 100 + 100 * (m' + 1) =
                start + 100 * (m' + 1 + 1) := by ring
            rw [this]
            exact h2
          have hleast' : ∀ i < m',
              ¬(pages (start + 100 + 100 * i) = [] ∧
                pages (start + 100 + 100 * (i + 1)) = []) := by
            intro i hi hcontra
            refine hleast (i + 1) (by omega) ?_
            constructor
            · have : start + 100 * (i + 1) = start + 100 + 100 * i := by ring
              rw [this]
              exact hcontra.1
            · have : start + 100 * (i + 1 + 1) =
                  start + 100 + 100 * (i + 1) := by ring
              rw [this]
              exact hcontra.2
          rw [ih m' (by omega) (start + 100) _ _ h1' h2' hleast']
          congr 1
          · have e3 : (List.range (m'.succ + 2)).flatMap
                (fun i => pages (start + 100 * i)) =
                pages start ++ (List.range (m' + 2)).flatMap
                  (fun i => pages (start + 100 + 100 * i)) := by
              rw [show m'.succ + 2 = (m' + 2) + 1 from rfl, flatMapRange_shift]
              rw [show (fun i => pages (start + 100 * (i + 1))) =
                  (fun i => pages (start + 100 + 100 * i)) from
                funext fun i => by
                  rw [show start + 100 * (i + 1) = start + 100 + 100 * i
                    from by ring]]
              rw [show start + 100 * 0 = start from by ring]
            rw [e3]
            simp [List.append_assoc]
          · have e4 : (List.range (m'.succ + 2)).map
                (fun i => start + 100 * i) =
                start :: (List.range (m' + 2)).map
                  (fun i => start + 100 + 100 * i) := by
              rw [show m'.succ + 2 = (m' + 2) + 1 from rfl, mapRange_shift]
              rw [show (fun i => start + 100 * (i + 1)) =
                  (fun i => start + 100 + 100 * i) from
                funext fun i => by ring]
              try rw [show start + 100 * 0 = start from by ring]
            rw [e4]
            simp [List.append_assoc]

end RiotAPIService

/-- Claim C8 (counterexample). In a run where the very first page already
contains 100 consecutive records (≥ the configured threshold of 50)
whose creation timestamps all precede the season window start, the
match-ID pagination of `getAllMatchHistoryForYear` nevertheless requests
offsets 100, 200 and 300 afterwards — it does not halt on out-of-window
records, refuting stopping condition (b) of the claim. -/
theorem claimC8_counterexample :
    ((RiotAPIService.pagesCE 0).length = 100 ∧ 50 ≤ 100 ∧
     ∀ id ∈ RiotAPIService.pagesCE 0,
       RiotAPIService.tsCE id < RiotAPIService.windowStartCE) ∧
    ((RiotAPIService.getAllMatchHistoryForYear RiotAPIService.pagesCE 6).2 =
      [0, 100, 200, 300]) ∧
    ¬ (([0, 100, 200, 300] : List Nat) = [0]) := by
  refine ⟨⟨by decide, by decide, ?_⟩, by decide, by decide⟩
  intro id _
  simp [RiotAPIService.tsCE, RiotAPIService.windowStartCE]

/-- Claim C8 (amended). The paginated match-ID fetch advances a fixed
100-sized offset window and concatenates the page results, and it stops
exactly when an empty page is confirmed by a second consecutive empty
page — `m` being the first offset index where two consecutive pages are
empty, the loop requests precisely offsets `0, 100, …, 100·(m+1)` and
returns the concatenation of all pages; record creation timestamps play
no role in the stopping condition (the 50-consecutive-pre-window early
stop lives in the match-detail processing loop of the `lolstats`
command, not in this pagination). -/
theorem claimC8_amended_two_empty_stop (pages : Nat → List String) (m : Nat)
    (h1 : pages (100 * m) = [])
    (h2 : pages (100 * (m + 1)) = [])
    (hleast : ∀ i < m, ¬(pages (100 * i) = [] ∧ pages (100 * (i + 1)) = [])) :
    RiotAPIService.getAllMatchHistoryForYear pages (m + 2) =
      ((List.range (m + 2)).flatMap (fun i => pages (100 * i)),
       (List.range (m + 2)).map (fun i => 100 * i)) := by
  unfold RiotAPIService.getAllMatchHistoryForYear
  have h := RiotAPIService.fetchLoop_spec pages m 0 [] []
    (by simpa using h1) (by simpa using h2)
    (by intro i hi
        have := hleast i hi
        simpa using this)
  simpa using h

/-- Closed witness for the amended C8: one page of IDs, then two
consecutive empty pages; the loop requests offsets 0, 100, 200 and
returns the single page's IDs. -/
theorem claimC8_amended_witness :
    RiotAPIService.getAllMatchHistoryForYear
        (fun s => if s = 0 then ["KR_1", "KR_2"] else []) 3 =
      (["KR_1", "KR_2"], [0, 100, 200]) := by
  rw [claimC8_amended_two_empty_stop
    (fun s => if s = 0 then ["KR_1", "KR_2"] else []) 1
    (by decide) (by decide)
    (by intro i hi
        interval_cases i
        decide)]
  decide

namespace APIKeyManager

theorem updateFirst_length (ks : List Credential) (keyId : String)
    (f : Credential → Credential) :
    (updateFirst ks keyId f).length = ks.length := by
  induction ks with
  | nil => rfl
  | cons e rest ih =>
      unfold updateFirst
      by_cases he : e.id = keyId
      · rw [if_pos he]
        rfl
      · rw [if_neg he]
        simpa using ih

theorem updateFirst_map_id (ks : List Credential) (keyId : String)
    (f : Credential → Credential) (hf : ∀ x, (f x).id = x.id) :
    (updateFirst ks keyId f).map Credential.id = ks.map Credential.id := by
  induction ks with
  | nil => rfl
  | cons e rest ih =>
      unfold updateFirst
      by_cases he : e.id = keyId
      · rw [if_pos he]
        simp [hf]
      · rw [if_neg he]
        simpa using ih

theorem mem_updateFirst (ks : List Credential) (keyId : String)
    (f : Credential → Credential) (x : Credential)
    (hx : x ∈ updateFirst ks keyId f) : x ∈ ks ∨ ∃ y ∈ ks, x = f y := by
  induction ks with
  | nil => simp [updateFirst] at hx
  | cons e rest ih =>
      unfold updateFirst at hx
      by_cases he : e.id = keyId
      · rw [if_pos he] at hx
        rcases List.mem_cons.mp hx with h | h
        · exact Or.inr ⟨e, List.mem_cons_self e rest, h⟩
        · exact Or.inl (List.mem_cons_of_mem e h)
      · rw [if_neg he] at hx
        rcases List.mem_cons.mp hx with h | h
        · exact Or.inl (h ▸ List.mem_cons_self e rest)
        · rcases ih h with h' | ⟨y, hy, hxy⟩
          · exact Or.inl (List.mem_cons_of_mem e h')
          · exact Or.inr ⟨y, List.mem_cons_of_mem e hy, hxy⟩

theorem usableKey_touchKey (now : Nat) (k : Credential) :
    usableKey (touchKey now k) = usableKey k := rfl

theorem getD_map_id (l : List Credential) (n : Nat) :
    (l.map Credential.id).getD n "" = (l.getD n defaultCred).id := by
  induction l generalizing n with
  | nil => rfl
  | cons e rest ih =>
      cases n with
      | zero => rfl
      | succ n => simpa using ih n

/-- On a non-empty all-healthy pool `getNextAPIKey` performs exactly the
round-robin step: it selects the credential at position
`currentKeyIndex % length`, stamps it, and advances the cursor. -/
theorem getNextAPIKey_healthy (s : ManagerState) (now : Nat)
    (hH : HealthyPool s) (hne : s.apiKeys ≠ []) :
    getNextAPIKey s now =
      .ok (touchKey now
             (s.apiKeys.getD (s.currentKeyIndex % s.apiKeys.length) defaultCred),
           ManagerState.mk
             (updateFirst s.apiKeys
               (s.apiKeys.getD (s.currentKeyIndex % s.apiKeys.length)
                  defaultCred).id
               (touchKey now))
             (s.currentKeyIndex + 1)) := by
  have hfilter : s.apiKeys.filter usableKey = s.apiKeys :=
    List.filter_eq_self.mpr hH
  have hlen : 0 < s.apiKeys.length := List.length_pos.mpr hne
  have hidx : s.currentKeyIndex % s.apiKeys.length < s.apiKeys.length :=
    Nat.mod_lt _ hlen
  have hmem : s.apiKeys.getD (s.currentKeyIndex % s.apiKeys.length)
      defaultCred ∈ s.apiKeys := by
    rw [List.getD_eq_getElem _ _ hidx]
    exact List.getElem_mem _
  have husable := hH _ hmem
  have hkey : ¬ ((s.apiKeys.getD (s.currentKeyIndex % s.apiKeys.length)
        defaultCred).key = "" ∨
      (jsTrim (s.apiKeys.getD (s.currentKeyIndex % s.apiKeys.length)
        defaultCred).key).length = 0) := by
    unfold usableKey at husable
    simp only [Bool.and_eq_true, bne_iff_ne, ne_eq] at husable
    rintro (h | h)
    · exact husable.1.2 h
    · exact husable.2 h
  unfold getNextAPIKey
  rw [getNextAPIKeyGo]
  rw [if_neg (by simpa using hne)]
  rw [hfilter]
  rw [if_neg (by simpa using hne)]
  rw [if_neg hkey]

theorem healthy_step_state (s : ManagerState) (now : Nat)
    (hH : HealthyPool s) (hne : s.apiKeys ≠ []) :
    ∃ s', getNextAPIKey s now =
        .ok (touchKey now
              (s.apiKeys.getD (s.currentKeyIndex % s.apiKeys.length) defaultCred),
             s') ∧
      HealthyPool s' ∧
      s'.apiKeys.map Credential.id = s.apiKeys.map Credential.id ∧
      s'.apiKeys.length = s.apiKeys.length ∧
      s'.currentKeyIndex = s.currentKeyIndex + 1 ∧
      s'.apiKeys ≠ [] := by
  refine ⟨_, getNextAPIKey_healthy s now hH hne, ?_, ?_, ?_, rfl, ?_⟩
  · intro c hc
    rcases mem_updateFirst _ _ _ _ hc with h | ⟨y, hy, hxy⟩
    · exact hH c h
    · rw [hxy, usableKey_touchKey]
      exact hH y hy
  · exact updateFirst_map_id _ _ _ (fun x => rfl)
  · exact updateFirst_length _ _ _
  · intro hcontra
    have h0 : (updateFirst s.apiKeys
        (s.apiKeys.getD (s.currentKeyIndex % s.apiKeys.length)
          defaultCred).id (touchKey now)).length = 0 :=
      congrArg List.length hcontra
    rw [updateFirst_length] at h0
    exact hne (List.eq_nil_of_length_eq_zero h0)

theorem selectionTrace_succ_ok (now n : Nat) (s s' : ManagerState)
    (k : Credential) (h : getNextAPIKey s now = .ok (k, s')) :
    selectionTrace now (n + 1) s = k.id :: selectionTrace now n s' := by
  conv_lhs => rw [selectionTrace]
  rw [h]

/-- On a healthy pool the selection trace is the round-robin readout of
the id list. -/
theorem selectionTrace_healthy (now : Nat) (n : Nat) :
    ∀ (s : ManagerState), HealthyPool s → s.apiKeys ≠ [] →
      selectionTrace now n s =
        (List.range n).map (fun j =>
          (s.apiKeys.map Credential.id).getD
            ((s.currentKeyIndex + j) % s.apiKeys.length) "") := by
  induction n with
  | zero => intro s _ _; rfl
  | succ n ih =>
      intro s hH hne
      rcases healthy_step_state s now hH hne with
        ⟨s', hstep, hH', hids, hlen, hidx, hne'⟩
      rw [selectionTrace_succ_ok now n s s' _ hstep]
      rw [ih s' hH' hne']
      rw [RiotAPIService.mapRange_shift]
      congr 1
      · rw [show (touchKey now
            (s.apiKeys.getD (s.currentKeyIndex % s.apiKeys.length)
              defaultCred)).id =
            (s.apiKeys.getD (s.currentKeyIndex % s.apiKeys.length)
              defaultCred).id from rfl]
        rw [← getD_map_id]
        rw [show s.currentKeyIndex % s.apiKeys.length =
            (s.currentKeyIndex + 0) % s.apiKeys.length from by simp]
      · rw [hids, hlen, hidx]
        rw [show (fun j => (List.map Credential.id s.apiKeys).getD
              ((s.currentKeyIndex + 1 + j) % s.apiKeys.length) "") =
            (fun j => (List.map Credential.id s.apiKeys).getD
              ((s.currentKeyIndex + (j + 1)) % s.apiKeys.length) "") from
          funext fun j => by
            rw [show s.currentKeyIndex + 1 + j = s.currentKeyIndex + (j + 1)
              from by omega]]

theorem count_map_countP {α : Type} [DecidableEq α] (f : Nat → α)
    (l : List Nat) (a : α) :
    (l.map f).count a = l.countP (fun x => f x = a) := by
  induction l with
  | nil => rfl
  | cons x xs ih =>
      simp only [List.map_cons, List.count_cons, List.countP_cons, ih]
      by_cases h : f x = a <;> simp [h]

theorem nodup_all_eq_singleton {α : Type} (l : List α) (c : α)
    (hnd : l.Nodup) (hall : ∀ x ∈ l, x = c) (hc : c ∈ l) : l = [c] := by
  match l, hnd, hall, hc with
  | [], _, _, hc => exact absurd hc (List.not_mem_nil c)
  | [x], _, hall, _ => rw [hall x (by simp)]
  | x :: y :: rest, hnd, hall, _ =>
      exfalso
      have hx : x = c := hall x (by simp)
      have hy : y = c := hall y (by simp)
      have : x ≠ y := by
        have := List.nodup_cons.mp hnd
        intro hxy
        exact this.1 (hxy ▸ List.mem_cons_self y rest)
      exact this (hx.trans hy.symm)

/-- In a window of `N` consecutive values of `j`, the congruence
`(i0 + j) % N = p` holds exactly once. -/
theorem countP_mod_window (N i0 p : Nat) (hN : 0 < N) (hp : p < N) :
    (List.range N).countP (fun j => decide ((i0 + j) % N = p)) = 1 := by
  have hq := Nat.div_add_mod i0 N
  have hr : i0 % N < N := Nat.mod_lt _ hN
  set c := if i0 % N ≤ p then p - i0 % N else p + N - i0 % N with hc
  have hcN : c < N := by
    rw [hc]
    by_cases hle : i0 % N ≤ p
    · rw [if_pos hle]; omega
    · rw [if_neg hle]; omega
  have hhit : (i0 + c) % N = p := by
    by_cases hle : i0 % N ≤ p
    · have hceq : i0 + c = p + N * (i0 / N) := by
        rw [hc, if_pos hle]
        omega
      rw [hceq, Nat.add_mul_mod_self_left, Nat.mod_eq_of_lt hp]
    · have hceq : i0 + c = p + N * (i0 / N + 1) := by
        rw [hc, if_neg hle]
        have : N * (i0 / N + 1) = N * (i0 / N) + N := by ring
        omega
      rw [hceq, Nat.add_mul_mod_self_left, Nat.mod_eq_of_lt hp]
  have huniq : ∀ j, j < N → (i0 + j) % N = p → j = c := by
    intro j hj hjp
    have hmod : (i0 + j) % N = (i0 + c) % N := by rw [hjp, hhit]
    have hcong : j % N = c % N :=
      Nat.ModEq.add_left_cancel' i0 hmod
    rwa [Nat.mod_eq_of_lt hj, Nat.mod_eq_of_lt hcN] at hcong
  rw [List.countP_eq_length_filter]
  rw [nodup_all_eq_singleton
    ((List.range N).filter (fun j => decide ((i0 + j) % N = p))) c
    (List.Nodup.filter _ (List.nodup_range N))
    (by
      intro x hx
      rcases List.mem_filter.mp hx with ⟨hxr, hxp⟩
      exact huniq x (List.mem_range.mp hxr) (by simpa using hxp))
    (List.mem_filter.mpr ⟨List.mem_range.mpr hcN, by simpa using hhit⟩)]
  rfl

/-- Over `k` full windows the congruence holds exactly `k` times. -/
theorem countP_mod_windows (N i0 p : Nat) (hN : 0 < N) (hp : p < N) :
    ∀ k, (List.range (k * N)).countP (fun j => decide ((i0 + j) % N = p)) = k := by
  intro k
  induction k with
  | zero => simp
  | succ k ih =>
      have : (k + 1) * N = k * N + N := by ring
      rw [this, List.range_add, List.countP_append, ih, List.countP_map]
      have hcongr : ∀ j ∈ List.range N,
          (((fun x => decide ((i0 + x) % N = p)) ∘ (fun x => k * N + x)) j
              = true ↔
            (fun x => decide ((i0 + x) % N = p)) j = true) := by
        intro j _
        simp only [Function.comp]
        rw [show i0 + (k * N + j) = (i0 + j) + k * N from by ring]
        rw [Nat.add_mul_mod_self_right]
      rw [List.countP_congr hcongr]
      rw [countP_mod_window N i0 p hN hp]

theorem getNextAPIKey_ok_of_trim (s : ManagerState) (now : Nat)
    (c : Credential) (hc : c ∈ s.apiKeys)
    (hkey : (jsTrim c.key).length ≠ 0) :
    ∃ r, getNextAPIKey s now = .ok r := by
  have hne : s.apiKeys ≠ [] := fun h => by simp [h] at hc
  have hckey : c.key ≠ "" := by
    intro h
    apply hkey
    rw [h]
    rfl
  unfold getNextAPIKey
  rw [getNextAPIKeyGo]
  rw [if_neg (by simpa using hne)]
  by_cases hfe : s.apiKeys.filter usableKey = []
  · rw [hfe]
    rw [if_pos (by decide)]
    have hcmem : ({ c with enabled := true, errorCount := 0 } : Credential) ∈
        reEnableAll s.apiKeys := by
      unfold reEnableAll
      exact List.mem_map.mpr ⟨c, hc, by rw [if_pos ⟨hckey, hkey⟩]⟩
    have husable : usableKey { c with enabled := true, errorCount := 0 } = true := by
      unfold usableKey
      simp [hckey, hkey]
    have hfne : (reEnableAll s.apiKeys).filter usableKey ≠ [] := by
      intro hnil
      have hin := List.mem_filter.mpr ⟨hcmem, husable⟩
      rw [hnil] at hin
      simp at hin
    rw [if_neg (by simpa using hfne)]
    exact ⟨_, rfl⟩
  · rw [if_neg (by simpa using hfe)]
    have hlenf : 0 < (s.apiKeys.filter usableKey).length :=
      List.length_pos.mpr hfe
    have hidxf : s.currentKeyIndex % (s.apiKeys.filter usableKey).length <
        (s.apiKeys.filter usableKey).length := Nat.mod_lt _ hlenf
    have hmemf : (s.apiKeys.filter usableKey).getD
        (s.currentKeyIndex % (s.apiKeys.filter usableKey).length) defaultCred ∈
        s.apiKeys.filter usableKey := by
      rw [List.getD_eq_getElem _ _ hidxf]
      exact List.getElem_mem _
    have husable := (List.mem_filter.mp hmemf).2
    have hval : ¬ (((s.apiKeys.filter usableKey).getD
          (s.currentKeyIndex % (s.apiKeys.filter usableKey).length)
          defaultCred).key = "" ∨
        (jsTrim ((s.apiKeys.filter usableKey).getD
          (s.currentKeyIndex % (s.apiKeys.filter usableKey).length)
          defaultCred).key).length = 0) := by
      unfold usableKey at husable
      simp only [Bool.and_eq_true, bne_iff_ne, ne_eq] at husable
      rintro (h | h)
      · exact husable.1.2 h
      · exact husable.2 h
    rw [if_neg hval]
    exact ⟨_, rfl⟩

theorem getNextAPIKey_error_of_all_blank (s : ManagerState) (now : Nat)
    (hall : ∀ c ∈ s.apiKeys, (jsTrim c.key).length = 0) :
    ∃ e, getNextAPIKey s now = .error e := by
  by_cases hne : s.apiKeys = []
  · refine ⟨"No API keys available. Please set RIOT_API_KEY in your .env file.", ?_⟩
    unfold getNextAPIKey
    rw [getNextAPIKeyGo]
    rw [if_pos (by simp [hne])]
  · have hfilter : s.apiKeys.filter usableKey = [] := by
      rw [List.filter_eq_nil_iff]
      intro c hc
      unfold usableKey
      simp [hall c hc]
    have hre : (reEnableAll s.apiKeys).filter usableKey = [] := by
      rw [List.filter_eq_nil_iff]
      intro x hx
      unfold reEnableAll at hx
      rcases List.mem_map.mp hx with ⟨y, hy, hxy⟩
      have hty := hall y hy
      by_cases hcond : y.key ≠ "" ∧ (jsTrim y.key).length ≠ 0
      · exact absurd hty hcond.2
      · rw [if_neg hcond] at hxy
        rw [← hxy]
        unfold usableKey
        simp [hty]
    refine ⟨"No valid API keys available. All keys are invalid or disabled.", ?_⟩
    unfold getNextAPIKey
    rw [getNextAPIKeyGo]
    rw [if_neg (by simpa using hne)]
    rw [hfilter]
    rw [if_pos (by decide)]
    simp [hre]

end APIKeyManager

/-- Claim C6. `getNextAPIKey` round-robins over the usable credentials:
on a pool of `N` healthy credentials with distinct ids, every run of
`k·N` consecutive selections returns each credential exactly `k` times;
and it throws a no-credentials error precisely when even the emergency
re-enable pass (reset every credential's `enabled`/`errorCount`, retry
once) finds no credential with a non-blank secret — equivalently, when
every configured secret is blank (or the pool is empty). -/
theorem claimC6_round_robin_and_exhaustion :
    (∀ (s : APIKeyManager.ManagerState) (now k : Nat),
       APIKeyManager.HealthyPool s →
       (s.apiKeys.map APIKeyManager.Credential.id).Nodup →
       s.apiKeys ≠ [] →
       ∀ id ∈ s.apiKeys.map APIKeyManager.Credential.id,
         (APIKeyManager.selectionTrace now (k * s.apiKeys.length) s).count id
           = k) ∧
    (∀ (s : APIKeyManager.ManagerState) (now : Nat),
       (∃ e, APIKeyManager.getNextAPIKey s now = .error e) ↔
         ∀ c ∈ s.apiKeys, (APIKeyManager.jsTrim c.key).length = 0) := by
  constructor
  · intro s now k hH hnd hne id hid
    have hN : 0 < s.apiKeys.length := List.length_pos.mpr hne
    rcases List.mem_iff_getElem.mp hid with ⟨p, hpLen, hpid⟩
    have hpN : p < s.apiKeys.length := by
      simpa using hpLen
    rw [APIKeyManager.selectionTrace_healthy now (k * s.apiKeys.length) s hH hne]
    rw [APIKeyManager.count_map_countP]
    have hcongr : ∀ j ∈ List.range (k * s.apiKeys.length),
        ((fun j => decide
            ((s.apiKeys.map APIKeyManager.Credential.id).getD
              ((s.currentKeyIndex + j) % s.apiKeys.length) "" = id)) j = true ↔
          (fun j => decide
            ((s.currentKeyIndex + j) % s.apiKeys.length = p)) j = true) := by
      intro j _
      simp only [decide_eq_true_eq]
      have hq : (s.currentKeyIndex + j) % s.apiKeys.length <
          s.apiKeys.length := Nat.mod_lt _ hN
      have hqLen : (s.currentKeyIndex + j) % s.apiKeys.length <
          (s.apiKeys.map APIKeyManager.Credential.id).length := by
        simpa using hq
      rw [List.getD_eq_getElem _ _ hqLen]
      rw [← hpid]
      constructor
      · intro hEq
        exact (List.Nodup.getElem_inj_iff hnd).mp hEq
      · intro hEq
        subst hEq
        rfl
    rw [List.countP_congr hcongr]
    exact APIKeyManager.countP_mod_windows s.apiKeys.length s.currentKeyIndex
      p hN hpN k
  · intro s now
    constructor
    · rintro ⟨e, he⟩ c hc
      by_contra hcne
      rcases APIKeyManager.getNextAPIKey_ok_of_trim s now c hc hcne with ⟨r, hr⟩
      rw [hr] at he
      cases he
    · exact fun hall =>
        APIKeyManager.getNextAPIKey_error_of_all_blank s now hall

/-- Closed witness for C6: with two healthy credentials, four selections
return each id exactly twice; and a pool whose only secret is blank
throws after the emergency re-enable. -/
theorem claimC6_witness :
    ((APIKeyManager.selectionTrace 0 4
        { apiKeys :=
            [{ id := "primary", key := "RGAPI-1", enabled := true,
               lastUsed := 0, errorCount := 0, requestCount := 0 },
             { id := "key_2", key := "RGAPI-2", enabled := true,
               lastUsed := 0, errorCount := 0, requestCount := 0 }],
          currentKeyIndex := 0 }).count "primary" = 2) ∧
    ((APIKeyManager.selectionTrace 0 4
        { apiKeys :=
            [{ id := "primary", key := "RGAPI-1", enabled := true,
               lastUsed := 0, errorCount := 0, requestCount := 0 },
             { id := "key_2", key := "RGAPI-2", enabled := true,
               lastUsed := 0, errorCount := 0, requestCount := 0 }],
          currentKeyIndex := 0 }).count "key_2" = 2) ∧
    (∃ e, APIKeyManager.getNextAPIKey
        { apiKeys :=
            [{ id := "primary", key := "  ", enabled := true,
               lastUsed := 0, errorCount := 0, requestCount := 0 }],
          currentKeyIndex := 0 } 0 = .error e) := by
  refine ⟨?_, ?_, ?_⟩
  · exact claimC6_round_robin_and_exhaustion.1
      { apiKeys :=
          [{ id := "primary", key := "RGAPI-1", enabled := true,
             lastUsed := 0, errorCount := 0, requestCount := 0 },
           { id := "key_2", key := "RGAPI-2", enabled := true,
             lastUsed := 0, errorCount := 0, requestCount := 0 }],
        currentKeyIndex := 0 } 0 2
      (by intro c hc; fin_cases hc <;> decide) (by decide) (by decide)
      "primary" (by decide)
  · exact claimC6_round_robin_and_exhaustion.1
      { apiKeys :=
          [{ id := "primary", key := "RGAPI-1", enabled := true,
             lastUsed := 0, errorCount := 0, requestCount := 0 },
           { id := "key_2", key := "RGAPI-2", enabled := true,
             lastUsed := 0, errorCount := 0, requestCount := 0 }],
        currentKeyIndex := 0 } 0 2
      (by intro c hc; fin_cases hc <;> decide) (by decide) (by decide)
      "key_2" (by decide)
  · exact (claimC6_round_robin_and_exhaustion.2
      { apiKeys :=
          [{ id := "primary", key := "  ", enabled := true,
             lastUsed := 0, errorCount := 0, requestCount := 0 }],
        currentKeyIndex := 0 } 0).mpr
      (by intro c hc; fin_cases hc <;> decide)

namespace APIKeyManager

theorem usable_not_blank (k : Credential) (h : usableKey k = true) :
    ¬ (k.key = "" ∨ (jsTrim k.key).length = 0) := by
  unfold usableKey at h
  simp only [Bool.and_eq_true, bne_iff_ne, ne_eq] at h
  rintro (hc | hc)
  · exact h.1.2 hc
  · exact h.2 hc

theorem selectedKey_usable (s : ManagerState) (hH : HealthyPool s)
    (hne : s.apiKeys ≠ []) :
    usableKey (s.apiKeys.getD (s.currentKeyIndex % s.apiKeys.length)
      defaultCred) = true := by
  have hlen : 0 < s.apiKeys.length := List.length_pos.mpr hne
  have hidx : s.currentKeyIndex % s.apiKeys.length < s.apiKeys.length :=
    Nat.mod_lt _ hlen
  apply hH
  rw [List.getD_eq_getElem _ _ hidx]
  exact List.getElem_mem _

theorem recordError_401_preserves (s : ManagerState) (keyId : String)
    (hH : HealthyPool s) :
    HealthyPool (recordError s keyId 401 0).1 ∧
    (recordError s keyId 401 0).1.apiKeys.length = s.apiKeys.length := by
  unfold recordError
  cases hf : s.apiKeys.find? (fun k => k.id = keyId) with
  | none => exact ⟨hH, rfl⟩
  | some k =>
      constructor
      · intro c hc
        rcases mem_updateFirst _ _ _ _ hc with h | ⟨y, hy, hxy⟩
        · exact hH c h
        · rw [hxy]
          rw [if_neg (by rintro ⟨h401, -⟩; rcases h401 with h | h <;> omega)]
          exact hH y hy
      · exact updateFirst_length _ _ _

end APIKeyManager

namespace RiotAPIService

theorem dispatchGo_http_reject (net : Nat → AxiosResult) (M r : Nat)
    (st : DispatchState) (key : APIKeyManager.Credential)
    (mgr1 : APIKeyManager.ManagerState)
    (hget : APIKeyManager.getNextAPIKey st.mgr 0 = .ok (key, mgr1))
    (hkeyok : ¬ (key.key = "" ∨ (APIKeyManager.jsTrim key.key).length = 0))
    (status : Nat) (hnet : net st.calls = .ok status none) (h400 : 400 ≤ status)
    (hnot : ¬ (status = 401 ∧ M - (r + 1) < M - 1)) :
    dispatchGo net M (r + 1) st = (.rejected (some status), st.calls + 1) := by
  rw [dispatchGo, hget]
  simp only []
  rw [if_neg hkeyok, hnet]
  simp only []
  rw [if_pos h400, if_neg hnot]

theorem dispatchGo_thrown_reject (net : Nat → AxiosResult) (M r : Nat)
    (st : DispatchState) (key : APIKeyManager.Credential)
    (mgr1 : APIKeyManager.ManagerState)
    (hget : APIKeyManager.getNextAPIKey st.mgr 0 = .ok (key, mgr1))
    (hkeyok : ¬ (key.key = "" ∨ (APIKeyManager.jsTrim key.key).length = 0))
    (stOpt : Option Nat) (hnet : net st.calls = .thrown stOpt)
    (hnot : ¬ (stOpt = some 401 ∧ M - (r + 1) < M - 1)) :
    dispatchGo net M (r + 1) st = (.rejected stOpt, st.calls + 1) := by
  rw [dispatchGo, hget]
  simp only []
  rw [if_neg hkeyok, hnet]
  simp only []
  rw [if_neg hnot]

theorem dispatchGo_body_reject (net : Nat → AxiosResult) (M r : Nat)
    (st : DispatchState) (key : APIKeyManager.Credential)
    (mgr1 : APIKeyManager.ManagerState)
    (hget : APIKeyManager.getNextAPIKey st.mgr 0 = .ok (key, mgr1))
    (hkeyok : ¬ (key.key = "" ∨ (APIKeyManager.jsTrim key.key).length = 0))
    (status bodyCode : Nat) (hnet : net st.calls = .ok status (some bodyCode))
    (hnot : ¬ (bodyCode = 401 ∧ M - (r + 1) < M - 1)) :
    dispatchGo net M (r + 1) st = (.rejected (some bodyCode), st.calls + 1) := by
  rw [dispatchGo, hget]
  simp only []
  rw [if_neg hkeyok, hnet]
  simp only []
  rw [if_neg hnot]

theorem dispatchGo_success (net : Nat → AxiosResult) (M r : Nat)
    (st : DispatchState) (key : APIKeyManager.Credential)
    (mgr1 : APIKeyManager.ManagerState)
    (hget : APIKeyManager.getNextAPIKey st.mgr 0 = .ok (key, mgr1))
    (hkeyok : ¬ (key.key = "" ∨ (APIKeyManager.jsTrim key.key).length = 0))
    (status : Nat) (hnet : net st.calls = .ok status none)
    (hlt : status < 400) :
    dispatchGo net M (r + 1) st = (.resolved, st.calls + 1) := by
  rw [dispatchGo, hget]
  simp only []
  rw [if_neg hkeyok, hnet]
  simp only []
  rw [if_neg (by omega)]

theorem dispatchGo_http401_continue (net : Nat → AxiosResult) (M r : Nat)
    (st : DispatchState) (key : APIKeyManager.Credential)
    (mgr1 : APIKeyManager.ManagerState)
    (hget : APIKeyManager.getNextAPIKey st.mgr 0 = .ok (key, mgr1))
    (hkeyok : ¬ (key.key = "" ∨ (APIKeyManager.jsTrim key.key).length = 0))
    (hnet : net st.calls = .ok 401 none) (hmore : M - (r + 1) < M - 1) :
    dispatchGo net M (r + 1) st =
      dispatchGo net M r
        { mgr := (APIKeyManager.recordError mgr1 key.id 401 0).1,
          calls := st.calls + 1, lastError := some (some 401) } := by
  rw [dispatchGo, hget]
  simp only []
  rw [if_neg hkeyok, hnet]
  simp only []
  rw [if_pos (by omega), if_pos ⟨by trivial, hmore⟩]

end RiotAPIService

/-- Claim C1 (counterexample). A queued request whose dispatch yields a 429
is rejected to the caller immediately after a single upstream call — no
sleep, no re-queue, no retry — even though the very next call would have
succeeded (`netC1 1` is a 200). This refutes the claimed internal
429/timeout/5xx retry of the Scheduler. -/
theorem claimC1_counterexample :
    RiotAPIService.processOneRequest RiotAPIService.netC1 RiotAPIService.mgrC1 =
      (.rejected (some 429), 1) ∧
    RiotAPIService.netC1 1 = .ok 200 none := by
  constructor
  · decide
  · decide

/-- Claim C1 (amended). The per-request dispatch of `processQueue` retries
only 401 authentication failures, by rotating to the next credential up
to `min(#keys, 3)` attempts without re-queueing; every other failure —
429, any other 4xx, a thrown 5xx, or a timeout — rejects the caller's
promise after exactly one upstream call, with no internal retry, backoff
or front-of-queue re-queue. -/
theorem claimC1_amended_only_401_retried :
    (∀ (s : APIKeyManager.ManagerState) (net : Nat → RiotAPIService.AxiosResult)
       (status : Nat),
       APIKeyManager.HealthyPool s → s.apiKeys ≠ [] →
       net 0 = .ok status none → 400 ≤ status → status ≠ 401 →
       RiotAPIService.processOneRequest net s =
         (.rejected (some status), 1)) ∧
    (∀ (s : APIKeyManager.ManagerState) (net : Nat → RiotAPIService.AxiosResult)
       (stOpt : Option Nat),
       APIKeyManager.HealthyPool s → s.apiKeys ≠ [] →
       net 0 = .thrown stOpt → stOpt ≠ some 401 →
       RiotAPIService.processOneRequest net s = (.rejected stOpt, 1)) ∧
    (∀ (s : APIKeyManager.ManagerState) (net : Nat → RiotAPIService.AxiosResult)
       (status bodyCode : Nat),
       APIKeyManager.HealthyPool s → s.apiKeys ≠ [] →
       net 0 = .ok status (some bodyCode) → bodyCode ≠ 401 →
       RiotAPIService.processOneRequest net s =
         (.rejected (some bodyCode), 1)) ∧
    (∀ (s : APIKeyManager.ManagerState) (net : Nat → RiotAPIService.AxiosResult),
       APIKeyManager.HealthyPool s → 2 ≤ s.apiKeys.length →
       net 0 = .ok 401 none → net 1 = .ok 200 none →
       RiotAPIService.processOneRequest net s = (.resolved, 2)) := by
  have keyok : ∀ (s : APIKeyManager.ManagerState),
      APIKeyManager.HealthyPool s → s.apiKeys ≠ [] →
      ¬ ((APIKeyManager.touchKey 0
            (s.apiKeys.getD (s.currentKeyIndex % s.apiKeys.length)
              APIKeyManager.defaultCred)).key = "" ∨
         (APIKeyManager.jsTrim (APIKeyManager.touchKey 0
            (s.apiKeys.getD (s.currentKeyIndex % s.apiKeys.length)
              APIKeyManager.defaultCred)).key).length = 0) := by
    intro s hH hne
    exact APIKeyManager.usable_not_blank _
      (APIKeyManager.selectedKey_usable s hH hne)
  refine ⟨?_, ?_, ?_, ?_⟩
  · intro s net status hH hne hnet h400 h401
    unfold RiotAPIService.processOneRequest
    obtain ⟨r, hr⟩ : ∃ r, min s.apiKeys.length 3 = r + 1 := by
      have : 0 < s.apiKeys.length := List.length_pos.mpr hne
      exact ⟨min s.apiKeys.length 3 - 1, by omega⟩
    rw [hr]
    exact RiotAPIService.dispatchGo_http_reject net (r + 1) r _ _ _
      (APIKeyManager.getNextAPIKey_healthy s 0 hH hne) (keyok s hH hne)
      status hnet h400 (by rintro ⟨hc, -⟩; exact h401 hc)
  · intro s net stOpt hH hne hnet h401
    unfold RiotAPIService.processOneRequest
    obtain ⟨r, hr⟩ : ∃ r, min s.apiKeys.length 3 = r + 1 := by
      have : 0 < s.apiKeys.length := List.length_pos.mpr hne
      exact ⟨min s.apiKeys.length 3 - 1, by omega⟩
    rw [hr]
    exact RiotAPIService.dispatchGo_thrown_reject net (r + 1) r _ _ _
      (APIKeyManager.getNextAPIKey_healthy s 0 hH hne) (keyok s hH hne)
      stOpt hnet (by rintro ⟨hc, -⟩; exact h401 hc)
  · intro s net status bodyCode hH hne hnet h401
    unfold RiotAPIService.processOneRequest
    obtain ⟨r, hr⟩ : ∃ r, min s.apiKeys.length 3 = r + 1 := by
      have : 0 < s.apiKeys.length := List.length_pos.mpr hne
      exact ⟨min s.apiKeys.length 3 - 1, by omega⟩
    rw [hr]
    exact RiotAPIService.dispatchGo_body_reject net (r + 1) r _ _ _
      (APIKeyManager.getNextAPIKey_healthy s 0 hH hne) (keyok s hH hne)
      status bodyCode hnet (by rintro ⟨hc, -⟩; exact h401 hc)
  · intro s net hH hlen2 hnet0 hnet1
    have hne : s.apiKeys ≠ [] := by
      intro h
      rw [h] at hlen2
      simp at hlen2
    unfold RiotAPIService.processOneRequest
    have hM : 2 ≤ min s.apiKeys.length 3 := by omega
    obtain ⟨r, hr⟩ : ∃ r, min s.apiKeys.length 3 = (r + 1) + 1 :=
      ⟨min s.apiKeys.length 3 - 2, by omega⟩
    rw [hr]
    rw [RiotAPIService.dispatchGo_http401_continue net ((r + 1) + 1) (r + 1) _ _ _
      (APIKeyManager.getNextAPIKey_healthy s 0 hH hne) (keyok s hH hne)
      hnet0 (by omega)]
    have hstep := APIKeyManager.healthy_step_state s 0 hH hne
    rcases hstep with ⟨s', hstep', hH', hids, hlenEq, hidx, hne'⟩
    have hgetEq := APIKeyManager.getNextAPIKey_healthy s 0 hH hne
    rw [hgetEq] at hstep'
    injection hstep' with hpair
    have hs' : s' = APIKeyManager.ManagerState.mk
        (APIKeyManager.updateFirst s.apiKeys
          (s.apiKeys.getD (s.currentKeyIndex % s.apiKeys.length)
             APIKeyManager.defaultCred).id
          (APIKeyManager.touchKey 0))
        (s.currentKeyIndex + 1) := by
      have := congrArg Prod.snd hpair
      exact this.symm
    have hrec := APIKeyManager.recordError_401_preserves
      (APIKeyManager.ManagerState.mk
        (APIKeyManager.updateFirst s.apiKeys
          (s.apiKeys.getD (s.currentKeyIndex % s.apiKeys.length)
             APIKeyManager.defaultCred).id
          (APIKeyManager.touchKey 0))
        (s.currentKeyIndex + 1))
      (APIKeyManager.touchKey 0
        (s.apiKeys.getD (s.currentKeyIndex % s.apiKeys.length)
          APIKeyManager.defaultCred)).id
      (by rw [← hs']; exact hH')
    have hlen' : ((APIKeyManager.recordError
        (APIKeyManager.ManagerState.mk
          (APIKeyManager.updateFirst s.apiKeys
            (s.apiKeys.getD (s.currentKeyIndex % s.apiKeys.length)
               APIKeyManager.defaultCred).id
            (APIKeyManager.touchKey 0))
          (s.currentKeyIndex + 1))
        (APIKeyManager.touchKey 0
          (s.apiKeys.getD (s.currentKeyIndex % s.apiKeys.length)
            APIKeyManager.defaultCred)).id 401 0).1).apiKeys ≠ [] := by
      intro hnil
      have h0 : ((APIKeyManager.recordError
          (APIKeyManager.ManagerState.mk
            (APIKeyManager.updateFirst s.apiKeys
              (s.apiKeys.getD (s.currentKeyIndex % s.apiKeys.length)
                 APIKeyManager.defaultCred).id
              (APIKeyManager.touchKey 0))
            (s.currentKeyIndex + 1))
          (APIKeyManager.touchKey 0
            (s.apiKeys.getD (s.currentKeyIndex % s.apiKeys.length)
              APIKeyManager.defaultCred)).id 401 0).1).apiKeys.length = 0 := by
        rw [hnil]
        rfl
      rw [hrec.2] at h0
      have h1 : (APIKeyManager.updateFirst s.apiKeys
          (s.apiKeys.getD (s.currentKeyIndex % s.apiKeys.length)
             APIKeyManager.defaultCred).id
          (APIKeyManager.touchKey 0)).length = 0 := h0
      rw [APIKeyManager.updateFirst_length] at h1
      omega
    rw [RiotAPIService.dispatchGo_success net ((r + 1) + 1) r _ _ _
      (APIKeyManager.getNextAPIKey_healthy _ 0 hrec.1 hlen')
      (APIKeyManager.usable_not_blank _
        (APIKeyManager.selectedKey_usable _ hrec.1 hlen'))
      200 hnet1 (by omega)]

/-- Closed witness for the amended C1: a 404 response rejects after one
call on a healthy single-key pool, and a 401 followed by a 200 resolves
after two calls (one credential rotation) on a healthy two-key pool. -/
theorem claimC1_amended_witness :
    RiotAPIService.processOneRequest (fun _ => .ok 404 none)
      { apiKeys := [{ id := "primary", key := "RGAPI-A", enabled := true,
                      lastUsed := 0, errorCount := 0, requestCount := 0 }],
        currentKeyIndex := 0 } = (.rejected (some 404), 1) ∧
    RiotAPIService.processOneRequest
      (fun n => if n = 0 then .ok 401 none else .ok 200 none)
      { apiKeys := [{ id := "primary", key := "RGAPI-A", enabled := true,
                      lastUsed := 0, errorCount := 0, requestCount := 0 },
                    { id := "key_2", key := "RGAPI-B", enabled := true,
                      lastUsed := 0, errorCount := 0, requestCount := 0 }],
        currentKeyIndex := 0 } = (.resolved, 2) := by
  constructor
  · exact claimC1_amended_only_401_retried.1
      { apiKeys := [{ id := "primary", key := "RGAPI-A", enabled := true,
                      lastUsed := 0, errorCount := 0, requestCount := 0 }],
        currentKeyIndex := 0 }
      (fun _ => .ok 404 none) 404
      (by intro c hc; fin_cases hc <;> decide) (by decide) rfl
      (by omega) (by omega)
  · exact claimC1_amended_only_401_retried.2.2.2
      { apiKeys := [{ id := "primary", key := "RGAPI-A", enabled := true,
                      lastUsed := 0, errorCount := 0, requestCount := 0 },
                    { id := "key_2", key := "RGAPI-B", enabled := true,
                      lastUsed := 0, errorCount := 0, requestCount := 0 }],
        currentKeyIndex := 0 }
      (fun n => if n = 0 then .ok 401 none else .ok 200 none)
      (by intro c hc; fin_cases hc <;> decide) (by decide) rfl rfl
